import Mathlib

/-!
# Verification of the supalytics streaming query-execution gateway

This file gives a shallow embedding, in Lean 4, of the core of the
`supalytics-executor` Go server and settles the specification claims
against it.  The embedding covers:

* the driver value coercion `convertValue` (`driver/driver.go`,
  `drivers/connector.go`);
* the websocket protocol constants (`drivers/connector.go` and the second
  revision of the websocket package);
* the query resolver `ExecuteQuery` (`runner/executor.go`, both revisions
  present in the repository), with an explicit log of external effects
  (metadata-store reads, driver connect/query/close);
* the per-connection state machine of `drivers/connector.go`
  (`queueQuery`, `handleCancelRequest`, `startQueueWorker`/`executeQuery`,
  and the read-loop dispatch of `handleWebSocket`), modelled as a
  deterministic transition function over an explicit connection state,
  driven by a list of atomic events (inbound frames and worker
  iterations).

Go maps and channels are modelled by association lists and FIFO lists;
shared mutable task objects are modelled by a task heap indexed by a
freshly allocated numeric id.  Invoking a task's `CancelFunc` is
recorded as a boolean on the task; note that in the code this cancels a
context nothing ever reads — `queueQuery` discards the derived context
(only the `CancelFunc` is stored in the task) and the worker passes the
*connection* context to `executeQuery` and `runner.ExecuteQuery`
(`drivers/connector.go` lines 409, 464, 485) — so the flag has no
effect on a task's subsequent execution.  Transport writes always
succeed in the model.
-/

namespace Supalytics

/-! ## Go values and driver value coercion -/

/-- A calendar timestamp as produced by Go's `time.Time` (UTC components;
sub-second precision omitted, it does not affect the claims). -/
structure GoTime where
  year : Nat
  month : Nat
  day : Nat
  hour : Nat
  minute : Nat
  second : Nat
deriving DecidableEq, Repr

/-- Two-digit zero padding used by RFC 3339 rendering. -/
def pad2 (n : Nat) : String :=
  if n < 10 then "0" ++ toString n else toString n

/-- Rendering of a `GoTime` in the shape of Go's `t.Format(time.RFC3339)`
for a UTC instant. -/
def formatRFC3339 (t : GoTime) : String :=
  toString t.year ++ "-" ++ pad2 t.month ++ "-" ++ pad2 t.day ++ "T" ++
    pad2 t.hour ++ ":" ++ pad2 t.minute ++ ":" ++ pad2 t.second ++ "Z"

/-- Go's `string(b)` on a byte slice: reinterpret the bytes as a string. -/
def stringOfBytes (bs : List Nat) : String :=
  String.mk (bs.map Char.ofNat)

/-- A dynamically typed Go value (`interface{}`) as it crosses the driver
boundary: the scan target of `database/sql` rows.  `floatBits` carries the
uninterpreted bit pattern of a `float64`; it is only passed through. -/
inductive GoValue where
  | null
  | boolVal (b : Bool)
  | intVal (i : Int)
  | floatBits (bits : Nat)
  | strVal (s : String)
  | bytesVal (bs : List Nat)
  | timeVal (t : GoTime)
deriving DecidableEq, Repr

/-- `convertValue` from `driver/driver.go` lines 141-152 (identical copy in
`drivers/connector.go` lines 131-142): byte slices become strings, `time.Time`
values are formatted as RFC 3339 text, `nil` passes through, everything else
is returned unchanged. -/
def convertValue : GoValue → GoValue
  | GoValue.bytesVal bs => GoValue.strVal (stringOfBytes bs)
  | GoValue.timeVal t => GoValue.strVal (formatRFC3339 t)
  | GoValue.null => GoValue.null
  | v => v

/-! ## Websocket protocol constants -/

/-- `maxMessageSize` from `drivers/connector.go` lines 190-191:
`512 * 1024 // 512KB`. -/
def maxMessageSize : Nat := 512 * 1024

/-- `maxMessageSize` from the second revision of the websocket package
(unnamed source, lines 22-23): `64 * 1024 * 1024 // 64MB`. -/
def maxMessageSizeRev2 : Nat := 64 * 1024 * 1024

/-- The read limit installed on every upgraded connection:
`conn.SetReadLimit(maxMessageSize)` in `handleWebSocket`
(`drivers/connector.go` line 324). -/
def connReadLimit : Nat := maxMessageSize

/-! ## The query resolver (`runner/executor.go`)

The repository carries two revisions of `ExecuteQuery`.  The second
revision (lines 291-328, with helpers `fetchQuery`, `renderTemplate`,
`fetchConnector`, `createDriver`) is embedded as `ExecuteQuery`; the
first revision (lines 84-205) as `ExecuteQueryV1`.  External
collaborators are parameters:

* `SupaClient` models the two read-only metadata lookups (the supabase
  `Execute` call fused with `json.Unmarshal`; a transport or unmarshal
  failure is an `Except.error`);
* `TemplateEngine` models Go's `text/template` (`Parse` may fail, then
  `Execute` may fail);
* `DriverModel` models a built driver: the outcome of `Connect` and, per
  SQL text, the outcome of `Query`;
* `DriverCatalog` models, per known connector type, the composition
  config-unmarshal → `ToJSON` → registry factory used by
  `createDriver`.

Each resolver returns its result together with the ordered list of
external effects it performed, so that sequencing claims are statable. -/

/-- A row of the `queries` table (`runner/executor.go` type `Query`;
fields not read by the resolver are omitted). -/
structure QueryRow where
  id : String
  connectorId : String
  content : String
deriving DecidableEq, Repr

/-- A row of the `connectors` table (`runner/executor.go` type `Connector`;
`ctype` embeds the Go field `Type`, `config` the raw JSON blob). -/
structure ConnectorRow where
  id : String
  ctype : String
  config : String
deriving DecidableEq, Repr

/-- The metadata store: the two point lookups of the resolver.  Each
returns the decoded row list (zero or more rows) or a transport/unmarshal
error. -/
structure SupaClient where
  queriesTable : String → Except String (List QueryRow)
  connectorsTable : String → Except String (List ConnectorRow)

/-- Go's `text/template` engine over a template-data type `δ`:
`parseErr c = some e` models `template.Parse(c)` failing with `e`;
`render c d` models `tmpl.Execute(buf, d)` on a successfully parsed
template. -/
structure TemplateEngine (δ : Type) where
  parseErr : String → Option String
  render : String → δ → Except String String

/-- `renderTemplate` from `runner/executor.go` lines 369-381: parse the
content, then execute it with the data. -/
def renderTemplate {δ : Type} (eng : TemplateEngine δ) (queryContent : String)
    (data : δ) : Except String String :=
  match eng.parseErr queryContent with
  | some e => Except.error e
  | none => eng.render queryContent data

/-- A built driver: outcome of `Connect(ctx)` and of `Query(ctx, sql)`.
A successful `Query` returns a stream handle; its row contents are not
needed by the resolver claims. -/
structure DriverModel where
  connectErr : Option String
  queryErr : String → Option String

/-- The driver factories reachable from `createDriver`: for each of the
three registered types, the composition of config unmarshalling,
`ToJSON`, and the registry factory (`driver.New`), any of which may
fail. -/
structure DriverCatalog where
  postgresFactory : String → Except String DriverModel
  bigqueryFactory : String → Except String DriverModel
  athenaFactory : String → Except String DriverModel

/-- `fetchQuery` from `runner/executor.go` lines 331-347: the `queries`
lookup; zero rows yields `ErrQueryNotFound` ("query not found"), else the
first row. -/
def fetchQuery (client : SupaClient) (queryID : String) : Except String QueryRow :=
  match client.queriesTable queryID with
  | Except.error e => Except.error e
  | Except.ok [] => Except.error "query not found"
  | Except.ok (q :: _) => Except.ok q

/-- `fetchConnector` from `runner/executor.go` lines 350-366: the
`connectors` lookup; zero rows yields `ErrConnectorNotFound`
("connector not found"). -/
def fetchConnector (client : SupaClient) (connectorID : String) :
    Except String ConnectorRow :=
  match client.connectorsTable connectorID with
  | Except.error e => Except.error e
  | Except.ok [] => Except.error "connector not found"
  | Except.ok (c :: _) => Except.ok c

/-- `createDriver` from `runner/executor.go` lines 384-395: dispatch on
`driver.DriverType(connector.Type)`; the three registered types go to
their factory, anything else is `ErrUnsupportedType`
("unsupported connector type: <type>"). -/
def createDriver (cat : DriverCatalog) (connector : ConnectorRow) :
    Except String DriverModel :=
  if connector.ctype = "postgres" then cat.postgresFactory connector.config
  else if connector.ctype = "bigquery" then cat.bigqueryFactory connector.config
  else if connector.ctype = "athena" then cat.athenaFactory connector.config
  else Except.error ("unsupported connector type: " ++ connector.ctype)

/-- The external effects a resolver run can perform, in order. -/
inductive ResolveEffect where
  | fetchQueries (id : String)
  | fetchConnectors (id : String)
  | driverConnect
  | driverQuery (sql : String)
  | driverClose
deriving DecidableEq, Repr

/-- The handle returned on success (`StreamResult`): the rendered SQL the
driver received and the driver owning the backend session. -/
structure StreamResultModel where
  sql : String
  drv : DriverModel

/-- `ExecuteQuery` from `runner/executor.go` lines 291-328 (second
revision): fetch the query, render the template, fetch the connector,
create the driver, `Connect` (closing the driver on failure), `Query`
(closing the driver on failure), and return the wrapped stream.  The
error-message prefixes are the `fmt.Errorf` wrappers of the code.  The
second component is the ordered effect log. -/
def ExecuteQuery {δ : Type} (client : SupaClient) (eng : TemplateEngine δ)
    (cat : DriverCatalog) (queryID : String) (templateData : δ) :
    Except String StreamResultModel × List ResolveEffect :=
  match fetchQuery client queryID with
  | Except.error e => (Except.error ("fetch query: " ++ e),
      [ResolveEffect.fetchQueries queryID])
  | Except.ok query =>
    match renderTemplate eng query.content templateData with
    | Except.error e => (Except.error ("render template: " ++ e),
        [ResolveEffect.fetchQueries queryID])
    | Except.ok finalQuery =>
      match fetchConnector client query.connectorId with
      | Except.error e => (Except.error ("fetch connector: " ++ e),
          [ResolveEffect.fetchQueries queryID,
           ResolveEffect.fetchConnectors query.connectorId])
      | Except.ok connector =>
        match createDriver cat connector with
        | Except.error e => (Except.error ("create driver: " ++ e),
            [ResolveEffect.fetchQueries queryID,
             ResolveEffect.fetchConnectors query.connectorId])
        | Except.ok drv =>
          match drv.connectErr with
          | some e => (Except.error ("connect: " ++ e),
              [ResolveEffect.fetchQueries queryID,
               ResolveEffect.fetchConnectors query.connectorId,
               ResolveEffect.driverConnect, ResolveEffect.driverClose])
          | none =>
            match drv.queryErr finalQuery with
            | some e => (Except.error ("execute query: " ++ e),
                [ResolveEffect.fetchQueries queryID,
                 ResolveEffect.fetchConnectors query.connectorId,
                 ResolveEffect.driverConnect,
                 ResolveEffect.driverQuery finalQuery,
                 ResolveEffect.driverClose])
            | none => (Except.ok ⟨finalQuery, drv⟩,
                [ResolveEffect.fetchQueries queryID,
                 ResolveEffect.fetchConnectors query.connectorId,
                 ResolveEffect.driverConnect,
                 ResolveEffect.driverQuery finalQuery])

/-- `ExecuteQuery` from `runner/executor.go` lines 84-205 (first
revision).  Same pipeline inlined, with that revision's error wrappers.
The one behavioural difference: on `Connect` failure the error is
propagated **without** calling `drv.Close()` (lines 185-187), while a
`Query` failure does call `drv.Close()` (lines 192-194). -/
def ExecuteQueryV1 {δ : Type} (client : SupaClient) (eng : TemplateEngine δ)
    (cat : DriverCatalog) (queryID : String) (templateData : δ) :
    Except String StreamResultModel × List ResolveEffect :=
  match client.queriesTable queryID with
  | Except.error e => (Except.error ("failed to query queries table: " ++ e),
      [ResolveEffect.fetchQueries queryID])
  | Except.ok [] => (Except.error "query not found",
      [ResolveEffect.fetchQueries queryID])
  | Except.ok (qr :: _) =>
    match eng.parseErr qr.content with
    | some e => (Except.error ("failed to parse query template: " ++ e),
        [ResolveEffect.fetchQueries queryID])
    | none =>
      match eng.render qr.content templateData with
      | Except.error e => (Except.error ("failed to execute query template: " ++ e),
          [ResolveEffect.fetchQueries queryID])
      | Except.ok finalQuery =>
        match client.connectorsTable qr.connectorId with
        | Except.error e => (Except.error ("failed to query connector: " ++ e),
            [ResolveEffect.fetchQueries queryID,
             ResolveEffect.fetchConnectors qr.connectorId])
        | Except.ok [] => (Except.error "connector not found",
            [ResolveEffect.fetchQueries queryID,
             ResolveEffect.fetchConnectors qr.connectorId])
        | Except.ok (connector :: _) =>
          match createDriver cat connector with
          | Except.error e => (Except.error e,
              [ResolveEffect.fetchQueries queryID,
               ResolveEffect.fetchConnectors qr.connectorId])
          | Except.ok drv =>
            match drv.connectErr with
            | some e => (Except.error ("failed to connect using driver: " ++ e),
                [ResolveEffect.fetchQueries queryID,
                 ResolveEffect.fetchConnectors qr.connectorId,
                 ResolveEffect.driverConnect])
            | none =>
              match drv.queryErr finalQuery with
              | some e => (Except.error ("query execution failed: " ++ e),
                  [ResolveEffect.fetchQueries queryID,
                   ResolveEffect.fetchConnectors qr.connectorId,
                   ResolveEffect.driverConnect,
                   ResolveEffect.driverQuery finalQuery,
                   ResolveEffect.driverClose])
              | none => (Except.ok ⟨finalQuery, drv⟩,
                  [ResolveEffect.fetchQueries queryID,
                   ResolveEffect.fetchConnectors qr.connectorId,
                   ResolveEffect.driverConnect,
                   ResolveEffect.driverQuery finalQuery])

/-! ## The per-connection state machine (`drivers/connector.go`)

One websocket connection is a `ConnState`: the bounded task queue
(a FIFO list of task ids, capacity `capacity`), the active-task index
`active` (streamId ↦ task id), the task heap `tasks` (id ↦ task record,
modelling the shared mutable `*QueryTask` objects), and the ordered
`trace` of outbound frames written under the write lock.  Atomic events:

* `ConnEvent.inbound m` — one iteration of the `handleWebSocket` read
  loop handling a decoded message `m`;
* `ConnEvent.worker spec` — one iteration of a `startQueueWorker` loop
  that dequeues and fully processes one task; `spec` is the oracle for
  what `runner.ExecuteQuery` and the driver stream produce for it.

Interleavings of the Go scheduler at the mutex boundaries are modelled
by the order of events in the list. -/

/-- One outbound frame (`WSMessage`): the `type` discriminant with the
payload fields actually set by the code.  Status strings are the
literals used by the code ("queued", "running", "completed", "failed",
"cancelled"). -/
inductive Frame where
  | status (streamId : String) (st : String)
  | metadata (streamId : String) (columns : List String)
  | row (streamId : String) (data : List GoValue)
  | complete (streamId : String) (totalRows : Nat)
  | error (streamId : String) (msg : String)
deriving DecidableEq, Repr

/-- The streamId a frame is addressed to. -/
def Frame.sid : Frame → String
  | Frame.status s _ => s
  | Frame.metadata s _ => s
  | Frame.row s _ => s
  | Frame.complete s _ => s
  | Frame.error s _ => s

/-- `QueryTask` (`drivers/connector.go` lines 232-238): the request
fields the state machine reads, the status string, and the task context
(`CancelFunc` invoked ⇔ `ctxCancelled`). -/
structure QueryTask where
  streamId : String
  queryId : String
  status : String
  ctxCancelled : Bool
deriving DecidableEq, Repr

/-- `ConnectionState` (`drivers/connector.go` lines 240-248) plus the
model bookkeeping: `nextId` allocates heap ids, `trace` records the
outbound frames in write order. -/
structure ConnState where
  nextId : Nat
  tasks : List (Nat × QueryTask)
  queue : List Nat
  active : List (String × Nat)
  trace : List Frame
  capacity : Nat
deriving DecidableEq, Repr

/-- A fresh connection (`NewConnectionState`). -/
def initState (capacity : Nat) : ConnState :=
  { nextId := 0, tasks := [], queue := [], active := [], trace := [],
    capacity := capacity }

/-- First-match lookup in the task heap. -/
def lookupTask : List (Nat × QueryTask) → Nat → Option QueryTask
  | [], _ => none
  | (j, t) :: rest, i => if i = j then some t else lookupTask rest i

/-- First-match in-place update in the task heap (the Go code mutates the
shared `*QueryTask`). -/
def setTask : List (Nat × QueryTask) → Nat → QueryTask → List (Nat × QueryTask)
  | [], _, _ => []
  | (j, t) :: rest, i, t' =>
    if i = j then (j, t') :: rest else (j, t) :: setTask rest i t'

/-- First-match lookup in the active index (`ActiveTasks[streamID]`). -/
def lookupActive : List (String × Nat) → String → Option Nat
  | [], _ => none
  | (u, i) :: rest, s => if s = u then some i else lookupActive rest s

/-- `delete(ActiveTasks, streamID)`. -/
def removeActive (a : List (String × Nat)) (s : String) : List (String × Nat) :=
  a.filter (fun p => p.1 ≠ s)

/-- `queueQuery` (`drivers/connector.go` lines 404-437): validate the ids,
reject a duplicate `streamId` under the lock, insert the task into the
active index, emit `status:queued`, then try the non-blocking enqueue; a
full queue removes the task from the index, cancels its context and
fails with "query queue is full".  Returns the new state and the error
(`some msg`) the caller receives. -/
def queueQuery (st : ConnState) (streamId queryId : String) :
    ConnState × Option String :=
  if streamId = "" ∨ queryId = "" then
    (st, some "streamId and queryId are required")
  else
    match lookupActive st.active streamId with
    | some _ => (st, some ("stream " ++ streamId ++ " already exists"))
    | none =>
      if st.queue.length < st.capacity then
        ({ st with nextId := st.nextId + 1,
                   tasks := (st.nextId, ⟨streamId, queryId, "queued", false⟩) :: st.tasks,
                   active := (streamId, st.nextId) :: st.active,
                   trace := st.trace ++ [Frame.status streamId "queued"],
                   queue := st.queue ++ [st.nextId] }, none)
      else
        ({ st with nextId := st.nextId + 1,
                   tasks := setTask ((st.nextId, ⟨streamId, queryId, "queued", false⟩) :: st.tasks)
                     st.nextId ⟨streamId, queryId, "queued", true⟩,
                   active := removeActive ((streamId, st.nextId) :: st.active) streamId,
                   trace := st.trace ++ [Frame.status streamId "queued"] },
         some "query queue is full")

/-- `handleCancelRequest` (`drivers/connector.go` lines 379-401): require
a `streamId`; under the lock, an absent stream is "stream <id> not
found"; otherwise invoke the task's `CancelFunc`, mark it "cancelled",
remove it from the index and emit `status:cancelled`. -/
def handleCancelRequest (st : ConnState) (streamId : String) :
    ConnState × Option String :=
  if streamId = "" then (st, some "streamId is required")
  else
    match lookupActive st.active streamId with
    | none => (st, some ("stream " ++ streamId ++ " not found"))
    | some id =>
      let tasks' :=
        match lookupTask st.tasks id with
        | some t => setTask st.tasks id { t with status := "cancelled", ctxCancelled := true }
        | none => st.tasks
      ({ st with tasks := tasks',
                 active := removeActive st.active streamId,
                 trace := st.trace ++ [Frame.status streamId "cancelled"] },
       none)

/-- The oracle for one execution of `runner.ExecuteQuery` plus the driver
stream: either the resolver fails, or the stream yields an optional
header (`metadata` is emitted per header yield), then `rows` row yields,
then ends cleanly or with an error.  The oracle does not depend on the
task's cancelled flag, because the worker passes the connection context,
never the task's, to execution (`drivers/connector.go` lines 464, 485). -/
structure ExecBehavior where
  resolveErr : Option String
  header : Option (List String)
  rows : List (List GoValue)
  streamEndErr : Option String
deriving Repr

/-- The frame the driver stream's header yield contributes: the
`metadata` frame, absent when no header was yielded before
termination. -/
def headerFrames (s : String) (header : Option (List String)) : List Frame :=
  match header with
  | some cols => [Frame.metadata s cols]
  | none => []

/-- `executeQuery` (`drivers/connector.go` lines 484-538) as the frames
it writes plus the error it returns.  The context it receives is the
worker's, i.e. the live connection context (lines 464, 485) — the task's
cancelled flag plays no role here.  A resolver error is wrapped
`execute query: <e>`; the stream's header becomes the `metadata` frame,
each row a `row` frame, and a clean end emits `complete` with the
counted rows. -/
def execFrames (streamId : String) (spec : ExecBehavior) :
    List Frame × Option String :=
  match spec.resolveErr with
  | some e => ([], some ("execute query: " ++ e))
  | none =>
    match spec.streamEndErr with
    | some e => (headerFrames streamId spec.header ++
        spec.rows.map (fun r => Frame.row streamId r), some e)
    | none => (headerFrames streamId spec.header ++
        spec.rows.map (fun r => Frame.row streamId r) ++
        [Frame.complete streamId spec.rows.length], none)

/-- One iteration of `startQueueWorker` (`drivers/connector.go` lines
451-480) that receives a task: mark it "running", emit `status:running`,
run `executeQuery` under the worker's (connection) context, then emit
either `error` + `status:failed` or `status:completed`, delete the
task's streamId from the active index and invoke the task's
`CancelFunc`.  An empty queue leaves the state unchanged (the worker
blocks on the channel). -/
def workerStep (spec : ExecBehavior) (st : ConnState) : ConnState :=
  match st.queue with
  | [] => st
  | id :: rest =>
    match lookupTask st.tasks id with
    | none => { st with queue := rest }
    | some task =>
      match execFrames task.streamId spec with
      | (frames, some errMsg) =>
        { st with
          queue := rest,
          tasks := setTask st.tasks id ⟨task.streamId, task.queryId, "failed", true⟩,
          active := removeActive st.active task.streamId,
          trace := st.trace ++ [Frame.status task.streamId "running"] ++ frames ++
            [Frame.error task.streamId errMsg,
             Frame.status task.streamId "failed"] }
      | (frames, none) =>
        { st with
          queue := rest,
          tasks := setTask st.tasks id ⟨task.streamId, task.queryId, "completed", true⟩,
          active := removeActive st.active task.streamId,
          trace := st.trace ++ [Frame.status task.streamId "running"] ++ frames ++
            [Frame.status task.streamId "completed"] }

/-- A decoded inbound message as read by the `handleWebSocket` loop
(`drivers/connector.go` lines 341-346; `templateData` is not read by the
state machine). -/
structure InboundMsg where
  mtype : String
  streamId : String
  queryId : String
deriving DecidableEq, Repr

/-- The read-loop body (`drivers/connector.go` lines 358-374): a
`cancel` message goes to `handleCancelRequest`, **any other** `type` is
handled as a regular query request via `queueQuery`; a returned error is
sent as an `error` frame for the message's `streamId` and the loop
continues. -/
def handleInbound (st : ConnState) (m : InboundMsg) : ConnState :=
  if m.mtype = "cancel" then
    match handleCancelRequest st m.streamId with
    | (st', some e) => { st' with trace := st'.trace ++ [Frame.error m.streamId e] }
    | (st', none) => st'
  else
    match queueQuery st m.streamId m.queryId with
    | (st', some e) => { st' with trace := st'.trace ++ [Frame.error m.streamId e] }
    | (st', none) => st'

/-- An atomic event of the connection. -/
inductive ConnEvent where
  | inbound (m : InboundMsg)
  | worker (spec : ExecBehavior)

/-- One step. -/
def stepConn (st : ConnState) : ConnEvent → ConnState
  | ConnEvent.inbound m => handleInbound st m
  | ConnEvent.worker spec => workerStep spec st

/-- Run a list of events. -/
def runConn (st : ConnState) : List ConnEvent → ConnState
  | [] => st
  | e :: es => runConn (stepConn st e) es

/-- The projection of a trace onto one streamId. -/
def traceFor (s : String) (tr : List Frame) : List Frame :=
  tr.filter (fun f => f.sid = s)

/-! ### The per-stream frame-sequence regular expression (spec §8.1) -/

/-- `(complete · status:completed | error · status:failed | status:cancelled)` -/
def termMatches (sid : String) : List Frame → Bool
  | [Frame.complete s _, Frame.status s' st] =>
    s = sid && s' = sid && st = "completed"
  | [Frame.error s _, Frame.status s' st] =>
    s = sid && s' = sid && st = "failed"
  | [Frame.status s st] => s = sid && st = "cancelled"
  | _ => false

/-- `row* · terminal` -/
def rowsThenTerm (sid : String) : List Frame → Bool
  | Frame.row s _ :: rest => s = sid && rowsThenTerm sid rest
  | l => termMatches sid l

/-- `status:queued · status:running · metadata? · row* · terminal` -/
def streamSeqMatches (sid : String) : List Frame → Bool
  | Frame.status s1 st1 :: Frame.status s2 st2 :: rest =>
    s1 = sid && st1 = "queued" && s2 = sid && st2 = "running" &&
      (match rest with
       | Frame.metadata s _ :: rest' => s = sid && rowsThenTerm sid rest'
       | l => rowsThenTerm sid l)
  | _ => false

/-- The shapes a stream's projection can take at an event boundary when
the stream is named by at most one inbound frame, a well-formed query:
nothing yet, admitted but still queued, rejected by a full queue, or the
full §8.1 sequence. -/
def streamOutcomeOK (sid : String) (proj : List Frame) : Bool :=
  decide (proj = []) ||
  decide (proj = [Frame.status sid "queued"]) ||
  decide (proj = [Frame.status sid "queued",
                  Frame.error sid "query queue is full"]) ||
  streamSeqMatches sid proj

/-! ## Concrete fixtures used by witnesses and counterexamples -/

/-- A driver whose `Connect` fails. -/
def connectFailDriver : DriverModel :=
  { connectErr := some "dial error", queryErr := fun _ => none }

/-- A driver whose `Connect` succeeds and whose `Query` always fails. -/
def queryFailDriver : DriverModel :=
  { connectErr := none, queryErr := fun _ => some "syntax error" }

/-- A catalog whose three factories all build the given driver. -/
def constCatalog (d : DriverModel) : DriverCatalog :=
  { postgresFactory := fun _ => Except.ok d,
    bigqueryFactory := fun _ => Except.ok d,
    athenaFactory := fun _ => Except.ok d }

/-- A metadata store holding one query `q1` on connector `c1` of type
`postgres`. -/
def demoClient : SupaClient :=
  { queriesTable := fun i =>
      if i = "q1" then Except.ok [⟨"q1", "c1", "SELECT 1"⟩] else Except.ok [],
    connectorsTable := fun i =>
      if i = "c1" then Except.ok [⟨"c1", "postgres", "{}"⟩] else Except.ok [] }

/-- A metadata store whose connector has an unregistered type. -/
def odbcClient : SupaClient :=
  { queriesTable := fun i =>
      if i = "q1" then Except.ok [⟨"q1", "c1", "SELECT 1"⟩] else Except.ok [],
    connectorsTable := fun i =>
      if i = "c1" then Except.ok [⟨"c1", "odbc", "{}"⟩] else Except.ok [] }

/-- A template engine that parses everything and renders the content
unchanged. -/
def idEngine : TemplateEngine Unit :=
  { parseErr := fun _ => none, render := fun c _ => Except.ok c }

/-- A template engine that fails to render. -/
def renderFailEngine : TemplateEngine Unit :=
  { parseErr := fun _ => none, render := fun _ _ => Except.error "missing field" }

/-! ## Association-list lemmas for the connection state -/

theorem lookupActive_eq_none_iff (a : List (String × Nat)) (s : String) :
    lookupActive a s = none ↔ ∀ p ∈ a, p.1 ≠ s := by
  induction a with
  | nil => simp [lookupActive]
  | cons p rest ih =>
    obtain ⟨u, i⟩ := p
    by_cases h : s = u
    · subst h
      simp [lookupActive]
    · simp only [lookupActive, if_neg h, ih, List.mem_cons]
      constructor
      · rintro hall p (rfl | hp)
        · simpa using fun hh => h hh.symm
        · exact hall p hp
      · intro hall p hp
        exact hall p (Or.inr hp)

theorem lookupActive_eq_some_mem {a : List (String × Nat)} {s : String} {i : Nat}
    (h : lookupActive a s = some i) : (s, i) ∈ a := by
  induction a with
  | nil => simp [lookupActive] at h
  | cons p rest ih =>
    obtain ⟨u, j⟩ := p
    by_cases hu : s = u
    · subst hu
      simp only [lookupActive, if_true, eq_self_iff_true, Option.some.injEq] at h
      subst h
      exact List.mem_cons_self _ _
    · simp only [lookupActive, if_neg hu] at h
      exact List.mem_cons_of_mem _ (ih h)

theorem mem_removeActive {a : List (String × Nat)} {s : String}
    {p : String × Nat} : p ∈ removeActive a s ↔ p ∈ a ∧ p.1 ≠ s := by
  simp [removeActive, List.mem_filter]

theorem removeActive_sublist (a : List (String × Nat)) (s : String) :
    (removeActive a s).Sublist a :=
  List.filter_sublist a

theorem lookupActive_removeActive_self (a : List (String × Nat)) (s : String) :
    lookupActive (removeActive a s) s = none := by
  rw [lookupActive_eq_none_iff]
  intro p hp
  exact (mem_removeActive.mp hp).2

theorem removeActive_cons_self (a : List (String × Nat)) (s : String) (i : Nat) :
    removeActive ((s, i) :: a) s = removeActive a s := by
  simp [removeActive]

theorem removeActive_cons_ne (a : List (String × Nat)) {u s : String} (i : Nat)
    (h : u ≠ s) : removeActive ((u, i) :: a) s = (u, i) :: removeActive a s := by
  simp [removeActive, h]

theorem lookupActive_removeActive_ne (a : List (String × Nat)) (s u : String)
    (h : u ≠ s) : lookupActive (removeActive a s) u = lookupActive a u := by
  induction a with
  | nil => rfl
  | cons p rest ih =>
    obtain ⟨v, i⟩ := p
    by_cases hv : v = s
    · subst hv
      rw [removeActive_cons_self, ih]
      simp [lookupActive, h]
    · rw [removeActive_cons_ne _ _ hv]
      by_cases hu : u = v
      · subst hu
        simp [lookupActive]
      · simp [lookupActive, hu, ih]

theorem removeActive_eq_self {a : List (String × Nat)} {s : String}
    (h : lookupActive a s = none) : removeActive a s = a := by
  rw [lookupActive_eq_none_iff] at h
  exact List.filter_eq_self.mpr (fun p hp => by simpa using h p hp)

theorem setTask_cons_self (ts : List (Nat × QueryTask)) (i : Nat)
    (t t' : QueryTask) : setTask ((i, t) :: ts) i t' = (i, t') :: ts := by
  simp [setTask]

theorem lookupTask_setTask_self (ts : List (Nat × QueryTask)) (i : Nat)
    (t' : QueryTask) :
    lookupTask (setTask ts i t') i = (lookupTask ts i).map (fun _ => t') := by
  induction ts with
  | nil => rfl
  | cons p rest ih =>
    obtain ⟨j, t⟩ := p
    by_cases h : i = j
    · subst h
      simp [setTask, lookupTask]
    · simp [setTask, lookupTask, h, ih]

theorem lookupTask_setTask_ne (ts : List (Nat × QueryTask)) (i k : Nat)
    (t' : QueryTask) (h : k ≠ i) :
    lookupTask (setTask ts i t') k = lookupTask ts k := by
  induction ts with
  | nil => rfl
  | cons p rest ih =>
    obtain ⟨j, t⟩ := p
    by_cases hij : i = j
    · subst hij
      simp [setTask, lookupTask, h, ih]
    · by_cases hkj : k = j
      · subst hkj
        simp [setTask, lookupTask, hij]
      · simp [setTask, lookupTask, hij, hkj, ih]

theorem lookupTask_isSome_setTask (ts : List (Nat × QueryTask)) (i k : Nat)
    (t' : QueryTask) :
    (lookupTask (setTask ts i t') k).isSome = (lookupTask ts k).isSome := by
  by_cases h : k = i
  · subst h
    rw [lookupTask_setTask_self]
    cases lookupTask ts k <;> rfl
  · rw [lookupTask_setTask_ne _ _ _ _ h]

theorem lookupTask_fresh (ts : List (Nat × QueryTask)) (n : Nat)
    (h : ∀ p ∈ ts, p.1 < n) : lookupTask ts n = none := by
  induction ts with
  | nil => rfl
  | cons p rest ih =>
    obtain ⟨j, t⟩ := p
    have hj : j < n := h (j, t) (List.mem_cons_self _ _)
    have : n ≠ j := fun hn => absurd (hn ▸ hj) (lt_irrefl _)
    simp only [lookupTask, if_neg this]
    exact ih (fun p hp => h p (List.mem_cons_of_mem _ hp))

theorem lookupActive_cons_self (a : List (String × Nat)) (s : String) (i : Nat) :
    lookupActive ((s, i) :: a) s = some i := by
  simp [lookupActive]

theorem lookupActive_cons_ne (a : List (String × Nat)) {u s : String} (i : Nat)
    (h : s ≠ u) : lookupActive ((u, i) :: a) s = lookupActive a s := by
  simp [lookupActive, h]

theorem mem_setTask {ts : List (Nat × QueryTask)} {i : Nat} {t' : QueryTask}
    {p : Nat × QueryTask} (hp : p ∈ setTask ts i t') :
    ∃ q ∈ ts, q.1 = p.1 := by
  induction ts with
  | nil => simp [setTask] at hp
  | cons r rest ih =>
    obtain ⟨j, t⟩ := r
    by_cases h : i = j
    · subst h
      rw [setTask_cons_self] at hp
      rcases List.mem_cons.mp hp with h1 | hp
      · exact ⟨(i, t), List.mem_cons_self _ _, by rw [h1]⟩
      · exact ⟨p, List.mem_cons_of_mem _ hp, rfl⟩
    · simp only [setTask, if_neg h] at hp
      rcases List.mem_cons.mp hp with h1 | hp
      · exact ⟨(j, t), List.mem_cons_self _ _, by rw [h1]⟩
      · obtain ⟨q, hq, hq1⟩ := ih hp
        exact ⟨q, List.mem_cons_of_mem _ hq, hq1⟩

/-! ## The connection well-formedness invariant

`WF` collects the structural facts about a `ConnState` that the Go code
maintains with its mutex discipline: the active index is a map with
unique streamId keys pointing at pairwise-distinct live tasks, every
active task also sits in the bounded queue (a worker that has dequeued a
task finishes it within one atomic `worker` event), the queue is
duplicate-free and respects the capacity, every queued id resolves in
the task heap, and `nextId` is fresh. -/

structure WF (st : ConnState) : Prop where
  activeKeysNodup : (st.active.map Prod.fst).Nodup
  activeIdsNodup : (st.active.map Prod.snd).Nodup
  activeConsistent : ∀ p ∈ st.active,
    ∃ t, lookupTask st.tasks p.2 = some t ∧ t.streamId = p.1
  activeSubQueue : ∀ p ∈ st.active, p.2 ∈ st.queue
  queueNodup : st.queue.Nodup
  queueLen : st.queue.length ≤ st.capacity
  queueInTasks : ∀ i ∈ st.queue, (lookupTask st.tasks i).isSome
  tasksFresh : ∀ p ∈ st.tasks, p.1 < st.nextId

theorem wf_initState (capacity : Nat) : WF (initState capacity) := by
  constructor <;> simp [initState]

theorem wf_lookupTask_nextId {st : ConnState} (hwf : WF st) :
    lookupTask st.tasks st.nextId = none :=
  lookupTask_fresh _ _ hwf.tasksFresh

theorem wf_queue_ne_nextId {st : ConnState} (hwf : WF st) {i : Nat}
    (hi : i ∈ st.queue) : i ≠ st.nextId := by
  intro h
  have hsome := hwf.queueInTasks i hi
  rw [h, wf_lookupTask_nextId hwf] at hsome
  simp at hsome

theorem wf_active_ne_nextId {st : ConnState} (hwf : WF st)
    {p : String × Nat} (hp : p ∈ st.active) : p.2 ≠ st.nextId :=
  wf_queue_ne_nextId hwf (hwf.activeSubQueue p hp)

theorem wf_queueQuery {st : ConnState} (hwf : WF st) (s q : String) :
    WF (queueQuery st s q).1 := by
  unfold queueQuery
  split
  · exact hwf
  · split
    · exact hwf
    · next hact =>
      split
      · next hlt =>
        constructor
        · refine List.Nodup.cons ?_ hwf.activeKeysNodup
          intro hmem
          rw [lookupActive_eq_none_iff] at hact
          simp only [List.mem_map] at hmem
          obtain ⟨p, hp, hp1⟩ := hmem
          exact hact p hp hp1
        · refine List.Nodup.cons ?_ hwf.activeIdsNodup
          intro hmem
          simp only [List.mem_map] at hmem
          obtain ⟨p, hp, hp2⟩ := hmem
          exact wf_active_ne_nextId hwf hp hp2
        · intro p hp
          rcases List.mem_cons.mp hp with rfl | hp
          · exact ⟨⟨s, q, "queued", false⟩, by simp [lookupTask], rfl⟩
          · obtain ⟨t, ht, hts⟩ := hwf.activeConsistent p hp
            refine ⟨t, ?_, hts⟩
            simp only [lookupTask, if_neg (wf_active_ne_nextId hwf hp)]
            exact ht
        · intro p hp
          rcases List.mem_cons.mp hp with rfl | hp
          · exact List.mem_append_right _ (List.mem_singleton.mpr rfl)
          · exact List.mem_append_left _ (hwf.activeSubQueue p hp)
        · rw [List.nodup_append]
          refine ⟨hwf.queueNodup, List.nodup_singleton _, ?_⟩
          intro i hi hmem
          rw [List.mem_singleton] at hmem
          exact wf_queue_ne_nextId hwf hi hmem
        · simpa using hlt
        · intro i hi
          rcases List.mem_append.mp hi with hi | hi
          · simp only [lookupTask]
            split
            · rfl
            · exact hwf.queueInTasks i hi
          · rw [List.mem_singleton] at hi
            subst hi
            simp [lookupTask]
        · intro p hp
          rcases List.mem_cons.mp hp with rfl | hp
          · exact Nat.lt_succ_self _
          · exact Nat.lt_succ_of_lt (hwf.tasksFresh p hp)
      · next hlt =>
        rw [removeActive_cons_self, removeActive_eq_self hact, setTask_cons_self]
        constructor
        · exact hwf.activeKeysNodup
        · exact hwf.activeIdsNodup
        · intro p hp
          obtain ⟨t, ht, hts⟩ := hwf.activeConsistent p hp
          refine ⟨t, ?_, hts⟩
          simp only [lookupTask, if_neg (wf_active_ne_nextId hwf hp)]
          exact ht
        · exact hwf.activeSubQueue
        · exact hwf.queueNodup
        · exact hwf.queueLen
        · intro i hi
          simp only [lookupTask]
          split
          · rfl
          · exact hwf.queueInTasks i hi
        · intro p hp
          rcases List.mem_cons.mp hp with rfl | hp
          · exact Nat.lt_succ_self _
          · exact Nat.lt_succ_of_lt (hwf.tasksFresh p hp)

theorem wf_entry_eq_of_snd_eq {st : ConnState} (hwf : WF st)
    {p q : String × Nat} (hp : p ∈ st.active) (hq : q ∈ st.active)
    (h : p.2 = q.2) : p = q :=
  List.inj_on_of_nodup_map hwf.activeIdsNodup hp hq h

theorem wf_handleCancelRequest {st : ConnState} (hwf : WF st) (s : String) :
    WF (handleCancelRequest st s).1 := by
  unfold handleCancelRequest
  split
  · exact hwf
  · split
    · exact hwf
    · next id hsome =>
      have hmem : (s, id) ∈ st.active := lookupActive_eq_some_mem hsome
      have hne : ∀ p ∈ st.active, p.1 ≠ s → p.2 ≠ id := by
        intro p hp hps hpid
        have := wf_entry_eq_of_snd_eq hwf hp hmem hpid
        rw [this] at hps
        exact hps rfl
      have htasks : ∀ k, (lookupTask
          (match lookupTask st.tasks id with
           | some t => setTask st.tasks id
               { t with status := "cancelled", ctxCancelled := true }
           | none => st.tasks) k).isSome = (lookupTask st.tasks k).isSome := by
        intro k
        split
        · exact lookupTask_isSome_setTask _ _ _ _
        · rfl
      have htasks_ne : ∀ k, k ≠ id → (lookupTask
          (match lookupTask st.tasks id with
           | some t => setTask st.tasks id
               { t with status := "cancelled", ctxCancelled := true }
           | none => st.tasks) k) = lookupTask st.tasks k := by
        intro k hk
        split
        · exact lookupTask_setTask_ne _ _ _ _ hk
        · rfl
      constructor
      · exact ((removeActive_sublist _ _).map _).nodup hwf.activeKeysNodup
      · exact ((removeActive_sublist _ _).map _).nodup hwf.activeIdsNodup
      · intro p hp
        obtain ⟨hpa, hps⟩ := mem_removeActive.mp hp
        obtain ⟨t, ht, hts⟩ := hwf.activeConsistent p hpa
        refine ⟨t, ?_, hts⟩
        rw [htasks_ne p.2 (hne p hpa hps)]
        exact ht
      · intro p hp
        exact hwf.activeSubQueue p (mem_removeActive.mp hp).1
      · exact hwf.queueNodup
      · exact hwf.queueLen
      · intro i hi
        rw [htasks]
        exact hwf.queueInTasks i hi
      · intro p hp
        split at hp
        · obtain ⟨r, hr, hr1⟩ := mem_setTask hp
          rw [← hr1]
          exact hwf.tasksFresh r hr
        · exact hwf.tasksFresh p hp

theorem wf_set_trace {st : ConnState} (hwf : WF st) (tr : List Frame) :
    WF { st with trace := tr } :=
  ⟨hwf.activeKeysNodup, hwf.activeIdsNodup, hwf.activeConsistent,
   hwf.activeSubQueue, hwf.queueNodup, hwf.queueLen, hwf.queueInTasks,
   hwf.tasksFresh⟩

theorem wf_handleInbound {st : ConnState} (hwf : WF st) (m : InboundMsg) :
    WF (handleInbound st m) := by
  unfold handleInbound
  split
  · split
    · next st' e heq =>
      have h := wf_handleCancelRequest hwf m.streamId
      rw [heq] at h
      exact wf_set_trace h _
    · next st' heq =>
      have h := wf_handleCancelRequest hwf m.streamId
      rw [heq] at h
      exact h
  · split
    · next st' e heq =>
      have h := wf_queueQuery hwf m.streamId m.queryId
      rw [heq] at h
      exact wf_set_trace h _
    · next st' heq =>
      have h := wf_queueQuery hwf m.streamId m.queryId
      rw [heq] at h
      exact h

theorem wf_workerStep {st : ConnState} (hwf : WF st) (spec : ExecBehavior) :
    WF (workerStep spec st) := by
  unfold workerStep
  split
  · exact hwf
  · next id rest hq =>
    split
    · next hnone =>
      have := hwf.queueInTasks id (hq ▸ List.mem_cons_self _ _)
      rw [hnone] at this
      simp at this
    · next task htask =>
      have hqueueNodup : (id :: rest).Nodup := hq ▸ hwf.queueNodup
      have hrestNodup : rest.Nodup := hqueueNodup.of_cons
      have hidrest : id ∉ rest := (List.nodup_cons.mp hqueueNodup).1
      have hrestLen : rest.length ≤ st.capacity := by
        have := hq ▸ hwf.queueLen
        simp only [List.length_cons] at this
        omega
      have hactive : ∀ p ∈ removeActive st.active task.streamId, p.2 ≠ id := by
        intro p hp hpid
        obtain ⟨hpa, hps⟩ := mem_removeActive.mp hp
        obtain ⟨t, ht, hts⟩ := hwf.activeConsistent p hpa
        rw [hpid, htask] at ht
        cases ht
        exact hps hts.symm
      have fields : ∀ t' : QueryTask, ∀ tr : List Frame,
          WF { st with queue := rest, tasks := setTask st.tasks id t',
                       active := removeActive st.active task.streamId,
                       trace := tr } := by
        intro t' tr
        constructor
        · exact ((removeActive_sublist _ _).map _).nodup hwf.activeKeysNodup
        · exact ((removeActive_sublist _ _).map _).nodup hwf.activeIdsNodup
        · intro p hp
          obtain ⟨t, ht, hts⟩ :=
            hwf.activeConsistent p (mem_removeActive.mp hp).1
          refine ⟨t, ?_, hts⟩
          rw [lookupTask_setTask_ne _ _ _ _ (hactive p hp)]
          exact ht
        · intro p hp
          have hpq := hwf.activeSubQueue p (mem_removeActive.mp hp).1
          rw [hq] at hpq
          rcases List.mem_cons.mp hpq with hpid | hpq
          · exact absurd hpid (hactive p hp)
          · exact hpq
        · exact hrestNodup
        · exact hrestLen
        · intro i hi
          rw [lookupTask_isSome_setTask]
          exact hwf.queueInTasks i (hq ▸ List.mem_cons_of_mem _ hi)
        · intro p hp
          obtain ⟨r, hr, hr1⟩ := mem_setTask hp
          rw [← hr1]
          exact hwf.tasksFresh r hr
      split
      · exact fields _ _
      · exact fields _ _

theorem wf_stepConn {st : ConnState} (hwf : WF st) (e : ConnEvent) :
    WF (stepConn st e) := by
  cases e with
  | inbound m => exact wf_handleInbound hwf m
  | worker spec => exact wf_workerStep hwf spec

theorem wf_runConn {st : ConnState} (hwf : WF st) (es : List ConnEvent) :
    WF (runConn st es) := by
  induction es generalizing st with
  | nil => exact hwf
  | cons e es ih => exact ih (wf_stepConn hwf e)

theorem capacity_queueQuery (st : ConnState) (s q : String) :
    (queueQuery st s q).1.capacity = st.capacity := by
  unfold queueQuery
  split
  · rfl
  · split
    · rfl
    · split <;> rfl

theorem capacity_handleCancelRequest (st : ConnState) (s : String) :
    (handleCancelRequest st s).1.capacity = st.capacity := by
  unfold handleCancelRequest
  split
  · rfl
  · split <;> rfl

theorem capacity_handleInbound (st : ConnState) (m : InboundMsg) :
    (handleInbound st m).capacity = st.capacity := by
  unfold handleInbound
  split
  · split
    · next st' e heq =>
      have h := capacity_handleCancelRequest st m.streamId
      rw [heq] at h
      exact h
    · next st' heq =>
      have h := capacity_handleCancelRequest st m.streamId
      rw [heq] at h
      exact h
  · split
    · next st' e heq =>
      have h := capacity_queueQuery st m.streamId m.queryId
      rw [heq] at h
      exact h
    · next st' heq =>
      have h := capacity_queueQuery st m.streamId m.queryId
      rw [heq] at h
      exact h

theorem capacity_workerStep (spec : ExecBehavior) (st : ConnState) :
    (workerStep spec st).capacity = st.capacity := by
  unfold workerStep
  split
  · rfl
  · split
    · rfl
    · split <;> rfl

theorem capacity_stepConn (st : ConnState) (e : ConnEvent) :
    (stepConn st e).capacity = st.capacity := by
  cases e with
  | inbound m => exact capacity_handleInbound st m
  | worker spec => exact capacity_workerStep spec st

theorem capacity_runConn (st : ConnState) (es : List ConnEvent) :
    (runConn st es).capacity = st.capacity := by
  induction es generalizing st with
  | nil => rfl
  | cons e es ih => exact (ih (stepConn st e)).trans (capacity_stepConn st e)

theorem nodup_subset_length_le {α : Type} [DecidableEq α] {l1 l2 : List α}
    (h1 : l1.Nodup) (hsub : l1 ⊆ l2) : l1.length ≤ l2.length := by
  calc l1.length = l1.toFinset.card := (List.toFinset_card_of_nodup h1).symm
  _ ≤ l2.toFinset.card := Finset.card_le_card (fun x hx => by
      rw [List.mem_toFinset] at hx ⊢
      exact hsub hx)
  _ ≤ l2.length := List.toFinset_card_le l2

theorem wf_active_length {st : ConnState} (hwf : WF st) :
    st.active.length ≤ st.capacity := by
  have h1 : (st.active.map Prod.snd).length ≤ st.queue.length :=
    nodup_subset_length_le hwf.activeIdsNodup (fun i hi => by
      simp only [List.mem_map] at hi
      obtain ⟨p, hp, hpi⟩ := hi
      rw [← hpi]
      exact hwf.activeSubQueue p hp)
  rw [List.length_map] at h1
  exact le_trans h1 hwf.queueLen

theorem queueQuery_duplicate (st : ConnState) (s q : String) {i : Nat}
    (h : lookupActive st.active s = some i) :
    (queueQuery st s q).2.isSome ∧ (queueQuery st s q).1.active = st.active := by
  unfold queueQuery
  split
  · exact ⟨rfl, rfl⟩
  · rw [h]
    exact ⟨rfl, rfl⟩

theorem workerStep_removes_entry (spec : ExecBehavior) (st : ConnState)
    {hd : Nat} {rest : List Nat} {task : QueryTask}
    (hq : st.queue = hd :: rest) (ht : lookupTask st.tasks hd = some task) :
    lookupActive (workerStep spec st).active task.streamId = none := by
  unfold workerStep
  simp only [hq, ht]
  split <;> exact lookupActive_removeActive_self _ _

/-! ## Per-stream projection lemmas -/

theorem traceFor_append (s : String) (tr l : List Frame) :
    traceFor s (tr ++ l) = traceFor s tr ++ traceFor s l := by
  simp [traceFor]

theorem traceFor_single_ne (s : String) (f : Frame) (h : f.sid ≠ s) :
    traceFor s [f] = [] := by
  simp [traceFor, h]

theorem traceFor_single_eq (s : String) (f : Frame) (h : f.sid = s) :
    traceFor s [f] = [f] := by
  simp [traceFor, h]

theorem traceFor_all_sid (s : String) (l : List Frame)
    (h : ∀ f ∈ l, f.sid = s) : traceFor s l = l :=
  List.filter_eq_self.mpr (fun f hf => by simp [h f hf])

theorem traceFor_all_sid_ne (s : String) (l : List Frame)
    (h : ∀ f ∈ l, f.sid ≠ s) : traceFor s l = [] := by
  rw [traceFor, List.filter_eq_nil_iff]
  intro f hf
  simp [h f hf]

theorem headerFrames_sids (s : String) (header : Option (List String)) :
    ∀ f ∈ headerFrames s header, f.sid = s := by
  intro f hf
  cases header with
  | some cols =>
    rw [headerFrames, List.mem_singleton] at hf
    rw [hf]
    rfl
  | none => simp [headerFrames] at hf

theorem execFrames_sids (s : String) (spec : ExecBehavior) :
    ∀ f ∈ (execFrames s spec).1, f.sid = s := by
  intro f hf
  unfold execFrames at hf
  split at hf
  · simp at hf
  · split at hf
    · rcases List.mem_append.mp hf with hm | hm
      · exact headerFrames_sids s spec.header f hm
      · obtain ⟨r, hr, hfr⟩ := List.mem_map.mp hm
        rw [← hfr]
        rfl
    · rcases List.mem_append.mp hf with hm | hm
      · rcases List.mem_append.mp hm with hm2 | hm2
        · exact headerFrames_sids s spec.header f hm2
        · obtain ⟨r, hr, hfr⟩ := List.mem_map.mp hm2
          rw [← hfr]
          rfl
      · rw [List.mem_singleton] at hm
        rw [hm]
        rfl

/-! ## Lemmas about the frame-sequence matcher -/

theorem rowsThenTerm_of_term {s : String} {l : List Frame}
    (h : termMatches s l = true) : rowsThenTerm s l = true := by
  match l with
  | [] => simp [termMatches] at h
  | Frame.row u d :: rest =>
    exfalso
    match rest with
    | [] => simp [termMatches] at h
    | [x] => simp [termMatches] at h
    | x :: y :: ys => simp [termMatches] at h
  | Frame.status u x :: rest => exact h
  | Frame.metadata u c :: rest => exact h
  | Frame.complete u n :: rest => exact h
  | Frame.error u e :: rest => exact h

theorem rowsThenTerm_append (s : String) (rows : List (List GoValue))
    (term : List Frame) (hterm : termMatches s term = true) :
    rowsThenTerm s (rows.map (fun r => Frame.row s r) ++ term) = true := by
  induction rows with
  | nil => exact rowsThenTerm_of_term hterm
  | cons r rs ih =>
    simp only [List.map_cons, List.cons_append, rowsThenTerm]
    simp [ih]

theorem streamSeqMatches_ok (s : String) (header : Option (List String))
    (rows : List (List GoValue)) (n : Nat) :
    streamSeqMatches s (Frame.status s "queued" :: Frame.status s "running" ::
      (headerFrames s header ++ rows.map (fun r => Frame.row s r) ++
        [Frame.complete s n, Frame.status s "completed"])) = true := by
  have hterm : termMatches s [Frame.complete s n, Frame.status s "completed"] = true := by
    simp [termMatches]
  have hrt := rowsThenTerm_append s rows _ hterm
  cases header with
  | some cols =>
    simp [headerFrames, streamSeqMatches, hrt]
  | none =>
    cases rows with
    | nil => simp [headerFrames, streamSeqMatches, rowsThenTerm_of_term hterm]
    | cons r rs =>
      simp only [headerFrames, List.nil_append, List.map_cons, List.cons_append] at hrt ⊢
      simp [streamSeqMatches, hrt]

theorem streamSeqMatches_err (s : String) (header : Option (List String))
    (rows : List (List GoValue)) (e : String) :
    streamSeqMatches s (Frame.status s "queued" :: Frame.status s "running" ::
      (headerFrames s header ++ rows.map (fun r => Frame.row s r) ++
        [Frame.error s e, Frame.status s "failed"])) = true := by
  have hterm : termMatches s [Frame.error s e, Frame.status s "failed"] = true := by
    simp [termMatches]
  have hrt := rowsThenTerm_append s rows _ hterm
  cases header with
  | some cols =>
    simp [headerFrames, streamSeqMatches, hrt]
  | none =>
    cases rows with
    | nil => simp [headerFrames, streamSeqMatches, rowsThenTerm_of_term hterm]
    | cons r rs =>
      simp only [headerFrames, List.nil_append, List.map_cons, List.cons_append] at hrt ⊢
      simp [streamSeqMatches, hrt]

/-! ## Per-stream lifecycle phases

`queueCleanFor s st` says no task reachable from the bounded queue
carries streamId `s`; together with `lookupActive … = none` it makes the
stream *inactive*: no event that does not name `s` can emit a frame for
`s`.  `StreamPhase` is the three-state lifecycle of a stream that is
named by at most one well-formed inbound query frame. -/

def queueCleanFor (s : String) (st : ConnState) : Prop :=
  ∀ i ∈ st.queue, ∀ t, lookupTask st.tasks i = some t → t.streamId ≠ s

inductive StreamPhase (s : String) (st : ConnState) : Prop where
  | notSeen
      (hproj : traceFor s st.trace = [])
      (hact : lookupActive st.active s = none)
      (hclean : queueCleanFor s st)
  | pending (id : Nat) (q : String)
      (hproj : traceFor s st.trace = [Frame.status s "queued"])
      (hact : lookupActive st.active s = some id)
      (hidq : id ∈ st.queue)
      (htask : lookupTask st.tasks id = some ⟨s, q, "queued", false⟩)
      (hothers : ∀ i ∈ st.queue, i ≠ id →
        ∀ t, lookupTask st.tasks i = some t → t.streamId ≠ s)
  | closed
      (hproj : traceFor s st.trace =
          [Frame.status s "queued", Frame.error s "query queue is full"] ∨
        streamSeqMatches s (traceFor s st.trace) = true)
      (hact : lookupActive st.active s = none)
      (hclean : queueCleanFor s st)

theorem inactive_queueQuery (s : String) {st : ConnState} (hwf : WF st)
    (hact : lookupActive st.active s = none) (hclean : queueCleanFor s st)
    (s2 q2 : String) (hm : s2 ≠ s) :
    traceFor s (queueQuery st s2 q2).1.trace = traceFor s st.trace ∧
    lookupActive (queueQuery st s2 q2).1.active s = none ∧
    queueCleanFor s (queueQuery st s2 q2).1 := by
  have hsid : (Frame.status s2 "queued").sid ≠ s := hm
  unfold queueQuery
  split
  · exact ⟨rfl, hact, hclean⟩
  · split
    · exact ⟨rfl, hact, hclean⟩
    · next hact2 =>
      split
      · next hlt =>
        refine ⟨?_, ?_, ?_⟩
        · rw [traceFor_append, traceFor_single_ne s _ hsid, List.append_nil]
        · rw [lookupActive_cons_ne _ _ (Ne.symm hm)]
          exact hact
        · intro i hi t ht
          rcases List.mem_append.mp hi with hi | hi
          · have hne : i ≠ st.nextId := wf_queue_ne_nextId hwf hi
            rw [lookupTask] at ht
            rw [if_neg hne] at ht
            exact hclean i hi t ht
          · rw [List.mem_singleton] at hi
            subst hi
            rw [lookupTask, if_pos rfl] at ht
            cases ht
            exact hm
      · next hlt =>
        rw [removeActive_cons_self, removeActive_eq_self hact2, setTask_cons_self]
        refine ⟨?_, hact, ?_⟩
        · rw [traceFor_append, traceFor_single_ne s _ hsid, List.append_nil]
        · intro i hi t ht
          have hne : i ≠ st.nextId := wf_queue_ne_nextId hwf hi
          rw [lookupTask, if_neg hne] at ht
          exact hclean i hi t ht

theorem inactive_handleCancelRequest (s : String) {st : ConnState} (hwf : WF st)
    (hact : lookupActive st.active s = none) (hclean : queueCleanFor s st)
    (s2 : String) (hm : s2 ≠ s) :
    traceFor s (handleCancelRequest st s2).1.trace = traceFor s st.trace ∧
    lookupActive (handleCancelRequest st s2).1.active s = none ∧
    queueCleanFor s (handleCancelRequest st s2).1 := by
  unfold handleCancelRequest
  split
  · exact ⟨rfl, hact, hclean⟩
  · split
    · exact ⟨rfl, hact, hclean⟩
    · next id2 hsome =>
      refine ⟨?_, ?_, ?_⟩
      · rw [traceFor_append,
          traceFor_single_ne s (Frame.status s2 "cancelled") hm, List.append_nil]
      · rw [lookupActive_removeActive_ne _ _ _ (Ne.symm hm)]
        exact hact
      · intro i hi t ht
        by_cases hid : i = id2
        · subst hid
          split at ht
          · next t0 ht0 =>
            rw [lookupTask_setTask_self, ht0] at ht
            cases ht
            exact hclean i hi t0 ht0
          · exact hclean i hi t ht
        · split at ht
          · rw [lookupTask_setTask_ne _ _ _ _ hid] at ht
            exact hclean i hi t ht
          · exact hclean i hi t ht

theorem inactive_workerStep (s : String) {st : ConnState} (hwf : WF st)
    (hact : lookupActive st.active s = none) (hclean : queueCleanFor s st)
    (spec : ExecBehavior) :
    traceFor s (workerStep spec st).trace = traceFor s st.trace ∧
    lookupActive (workerStep spec st).active s = none ∧
    queueCleanFor s (workerStep spec st) := by
  unfold workerStep
  split
  · exact ⟨rfl, hact, hclean⟩
  · next id2 rest hq =>
    split
    · next hnone =>
      refine ⟨rfl, hact, ?_⟩
      intro i hi t ht
      exact hclean i (hq ▸ List.mem_cons_of_mem _ hi) t ht
    · next task htask2 =>
      have hts : task.streamId ≠ s :=
        hclean id2 (hq ▸ List.mem_cons_self _ _) task htask2
      have htrace : ∀ res : List Frame × Option String,
          execFrames task.streamId spec = res →
          ∀ f ∈ res.1, f.sid ≠ s := by
        intro res hres f hf hfs
        have := execFrames_sids task.streamId spec f
          (hres ▸ hf)
        rw [this] at hfs
        exact hts hfs
      split
      · next frames errMsg heq =>
        have hterm : traceFor s [Frame.error task.streamId errMsg,
            Frame.status task.streamId "failed"] = [] := by
          refine traceFor_all_sid_ne s _ ?_
          intro f hf
          rcases List.mem_cons.mp hf with h1 | hf
          · rw [h1]
            exact hts
          · rw [List.mem_singleton] at hf
            rw [hf]
            exact hts
        refine ⟨?_, ?_, ?_⟩
        · rw [traceFor_append, traceFor_append, traceFor_append,
            traceFor_single_ne s (Frame.status task.streamId "running") hts,
            traceFor_all_sid_ne s frames (htrace _ heq), hterm]
          simp
        · rw [lookupActive_removeActive_ne _ _ _ (Ne.symm hts)]
          exact hact
        · intro i hi t ht
          by_cases hid : i = id2
          · subst hid
            rw [lookupTask_setTask_self, htask2] at ht
            cases ht
            exact hts
          · rw [lookupTask_setTask_ne _ _ _ _ hid] at ht
            exact hclean i (hq ▸ List.mem_cons_of_mem _ hi) t ht
      · next frames heq =>
        refine ⟨?_, ?_, ?_⟩
        · rw [traceFor_append, traceFor_append, traceFor_append,
            traceFor_single_ne s (Frame.status task.streamId "running") hts,
            traceFor_all_sid_ne s frames (htrace _ heq),
            traceFor_single_ne s (Frame.status task.streamId "completed") hts]
          simp
        · rw [lookupActive_removeActive_ne _ _ _ (Ne.symm hts)]
          exact hact
        · intro i hi t ht
          by_cases hid : i = id2
          · subst hid
            rw [lookupTask_setTask_self, htask2] at ht
            cases ht
            exact hts
          · rw [lookupTask_setTask_ne _ _ _ _ hid] at ht
            exact hclean i (hq ▸ List.mem_cons_of_mem _ hi) t ht

theorem phase_append_trace (s : String) {st : ConnState} (hph : StreamPhase s st)
    (l : List Frame) (hl : ∀ f ∈ l, f.sid ≠ s) :
    StreamPhase s { st with trace := st.trace ++ l } := by
  have hl2 : traceFor s (st.trace ++ l) = traceFor s st.trace := by
    rw [traceFor_append, traceFor_all_sid_ne s l hl, List.append_nil]
  cases hph with
  | notSeen hproj hact hclean =>
    exact StreamPhase.notSeen (hl2.trans hproj) hact hclean
  | pending id q hproj hact hidq htask hothers =>
    exact StreamPhase.pending id q (hl2.trans hproj) hact hidq htask hothers
  | closed hproj hact hclean =>
    refine StreamPhase.closed ?_ hact hclean
    rw [show ({ st with trace := st.trace ++ l } : ConnState).trace =
      st.trace ++ l from rfl, hl2]
    exact hproj

theorem term_sids_err (s e : String) :
    ∀ f ∈ [Frame.error s e, Frame.status s "failed"], f.sid = s := by
  intro f hf
  rcases List.mem_cons.mp hf with h | hf
  · rw [h]
    rfl
  · rw [List.mem_singleton] at hf
    rw [hf]
    rfl

theorem term_sids_completed (s : String) :
    ∀ f ∈ [Frame.status s "completed"], f.sid = s := by
  intro f hf
  rw [List.mem_singleton] at hf
  rw [hf]
  rfl

theorem closed_after_run (s : String) (base : List Frame)
    (hbase : traceFor s base = [Frame.status s "queued"])
    (frames term : List Frame)
    (hframes : ∀ f ∈ frames, f.sid = s) (hterm : ∀ f ∈ term, f.sid = s)
    (hmatch : streamSeqMatches s (Frame.status s "queued" ::
      Frame.status s "running" :: (frames ++ term)) = true) :
    streamSeqMatches s
      (traceFor s (base ++ [Frame.status s "running"] ++ frames ++ term)) = true := by
  rw [traceFor_append, traceFor_append, traceFor_append, hbase,
    traceFor_single_eq s (Frame.status s "running") rfl,
    traceFor_all_sid s frames hframes, traceFor_all_sid s term hterm]
  simpa using hmatch

theorem pending_queueQuery (s : String) {st : ConnState} (hwf : WF st)
    (id : Nat) (q : String)
    (hproj : traceFor s st.trace = [Frame.status s "queued"])
    (hact : lookupActive st.active s = some id)
    (hidq : id ∈ st.queue)
    (htask : lookupTask st.tasks id = some ⟨s, q, "queued", false⟩)
    (hothers : ∀ i ∈ st.queue, i ≠ id →
      ∀ t, lookupTask st.tasks i = some t → t.streamId ≠ s)
    (s2 q2 : String) (hm : s2 ≠ s) :
    StreamPhase s (queueQuery st s2 q2).1 := by
  have hidnext : id ≠ st.nextId := wf_queue_ne_nextId hwf hidq
  unfold queueQuery
  split
  · exact StreamPhase.pending id q hproj hact hidq htask hothers
  · split
    · exact StreamPhase.pending id q hproj hact hidq htask hothers
    · next hact2 =>
      split
      · next hlt =>
        refine StreamPhase.pending id q ?_ ?_ ?_ ?_ ?_
        · rw [traceFor_append, traceFor_single_ne s (Frame.status s2 "queued") hm,
            List.append_nil]
          exact hproj
        · rw [lookupActive_cons_ne _ _ (Ne.symm hm)]
          exact hact
        · exact List.mem_append_left _ hidq
        · rw [lookupTask, if_neg hidnext]
          exact htask
        · intro i hi hiid t ht
          rcases List.mem_append.mp hi with hi | hi
          · have hne : i ≠ st.nextId := wf_queue_ne_nextId hwf hi
            rw [lookupTask, if_neg hne] at ht
            exact hothers i hi hiid t ht
          · rw [List.mem_singleton] at hi
            subst hi
            rw [lookupTask, if_pos rfl] at ht
            cases ht
            exact hm
      · next hlt =>
        rw [removeActive_cons_self, removeActive_eq_self hact2, setTask_cons_self]
        refine StreamPhase.pending id q ?_ hact hidq ?_ ?_
        · rw [traceFor_append, traceFor_single_ne s (Frame.status s2 "queued") hm,
            List.append_nil]
          exact hproj
        · rw [lookupTask, if_neg hidnext]
          exact htask
        · intro i hi hiid t ht
          have hne : i ≠ st.nextId := wf_queue_ne_nextId hwf hi
          rw [lookupTask, if_neg hne] at ht
          exact hothers i hi hiid t ht

theorem pending_handleCancelRequest (s : String) {st : ConnState} (hwf : WF st)
    (id : Nat) (q : String)
    (hproj : traceFor s st.trace = [Frame.status s "queued"])
    (hact : lookupActive st.active s = some id)
    (hidq : id ∈ st.queue)
    (htask : lookupTask st.tasks id = some ⟨s, q, "queued", false⟩)
    (hothers : ∀ i ∈ st.queue, i ≠ id →
      ∀ t, lookupTask st.tasks i = some t → t.streamId ≠ s)
    (s2 : String) (hm : s2 ≠ s) :
    StreamPhase s (handleCancelRequest st s2).1 := by
  unfold handleCancelRequest
  split
  · exact StreamPhase.pending id q hproj hact hidq htask hothers
  · split
    · exact StreamPhase.pending id q hproj hact hidq htask hothers
    · next id2 hsome =>
      have hmem2 : (s2, id2) ∈ st.active := lookupActive_eq_some_mem hsome
      have hne : id ≠ id2 := by
        intro h
        obtain ⟨t2, ht2, hts2⟩ := hwf.activeConsistent (s2, id2) hmem2
        rw [← h, htask] at ht2
        cases ht2
        exact hm hts2.symm
      refine StreamPhase.pending id q ?_ ?_ hidq ?_ ?_
      · rw [traceFor_append, traceFor_single_ne s (Frame.status s2 "cancelled") hm,
          List.append_nil]
        exact hproj
      · rw [lookupActive_removeActive_ne _ _ _ (Ne.symm hm)]
        exact hact
      · split
        · rw [lookupTask_setTask_ne _ _ _ _ hne]
          exact htask
        · exact htask
      · intro i hi hiid t ht
        by_cases hid2 : i = id2
        · subst hid2
          split at ht
          · next t0 ht0 =>
            rw [lookupTask_setTask_self, ht0] at ht
            cases ht
            exact hothers i hi hiid t0 ht0
          · exact hothers i hi hiid t ht
        · split at ht
          · rw [lookupTask_setTask_ne _ _ _ _ hid2] at ht
            exact hothers i hi hiid t ht
          · exact hothers i hi hiid t ht

theorem pending_workerStep (s : String) {st : ConnState} (hwf : WF st)
    (id : Nat) (q : String)
    (hproj : traceFor s st.trace = [Frame.status s "queued"])
    (hact : lookupActive st.active s = some id)
    (hidq : id ∈ st.queue)
    (htask : lookupTask st.tasks id = some ⟨s, q, "queued", false⟩)
    (hothers : ∀ i ∈ st.queue, i ≠ id →
      ∀ t, lookupTask st.tasks i = some t → t.streamId ≠ s)
    (spec : ExecBehavior) :
    StreamPhase s (workerStep spec st) := by
  unfold workerStep
  split
  · exact StreamPhase.pending id q hproj hact hidq htask hothers
  · next id2 rest hq =>
    split
    · next hnone =>
      have hq2 := hwf.queueInTasks id2 (hq ▸ List.mem_cons_self _ _)
      rw [hnone] at hq2
      simp at hq2
    · next task htask2 =>
      by_cases hid : id2 = id
      · subst hid
        rw [htask] at htask2
        cases htask2
        have hrest_id : id2 ∉ rest := (List.nodup_cons.mp (hq ▸ hwf.queueNodup)).1
        have hact2 : lookupActive (removeActive st.active s) s = none :=
          lookupActive_removeActive_self _ _
        have hcleanRest : ∀ t' : QueryTask, ∀ i ∈ rest,
            ∀ t, lookupTask (setTask st.tasks id2 t') i = some t →
            t.streamId ≠ s := by
          intro t' i hi t ht
          have hine : i ≠ id2 := fun h => hrest_id (h ▸ hi)
          rw [lookupTask_setTask_ne _ _ _ _ hine] at ht
          exact hothers i (hq ▸ List.mem_cons_of_mem _ hi) hine t ht
        obtain ⟨re, hd, rws, se⟩ := spec
        cases re with
        | some e =>
          exact StreamPhase.closed
            (Or.inr (closed_after_run s st.trace hproj []
              [Frame.error s ("execute query: " ++ e), Frame.status s "failed"]
              (fun f hf => absurd hf (List.not_mem_nil f))
              (term_sids_err s _)
              (by simpa [headerFrames] using
                streamSeqMatches_err s none [] ("execute query: " ++ e))))
            hact2 (hcleanRest _)
        | none =>
          cases se with
          | some e =>
            exact StreamPhase.closed
              (Or.inr (closed_after_run s st.trace hproj
                (headerFrames s hd ++ rws.map (fun r => Frame.row s r))
                [Frame.error s e, Frame.status s "failed"]
                (execFrames_sids s ⟨none, hd, rws, some e⟩)
                (term_sids_err s _)
                (by simpa using streamSeqMatches_err s hd rws e)))
              hact2 (hcleanRest _)
          | none =>
            exact StreamPhase.closed
              (Or.inr (closed_after_run s st.trace hproj
                (headerFrames s hd ++ rws.map (fun r => Frame.row s r) ++
                  [Frame.complete s rws.length])
                [Frame.status s "completed"]
                (execFrames_sids s ⟨none, hd, rws, none⟩)
                (term_sids_completed s)
                (by simpa using streamSeqMatches_ok s hd rws rws.length)))
              hact2 (hcleanRest _)
      · have hts : task.streamId ≠ s :=
          hothers id2 (hq ▸ List.mem_cons_self _ _) hid task htask2
        have hidrest : id ∈ rest := by
          have hmem := hq ▸ hidq
          rcases List.mem_cons.mp hmem with h1 | h2
          · exact absurd h1.symm hid
          · exact h2
        have hactive2 : lookupActive (removeActive st.active task.streamId) s =
            some id := by
          rw [lookupActive_removeActive_ne _ _ _ (Ne.symm hts)]
          exact hact
        have htask3 : ∀ t' : QueryTask,
            lookupTask (setTask st.tasks id2 t') id = some ⟨s, q, "queued", false⟩ := by
          intro t'
          rw [lookupTask_setTask_ne _ _ _ _ (fun h => hid h.symm)]
          exact htask
        have hothers2 : ∀ t' : QueryTask, t'.streamId = task.streamId →
            ∀ i ∈ rest, i ≠ id →
            ∀ t, lookupTask (setTask st.tasks id2 t') i = some t →
            t.streamId ≠ s := by
          intro t' ht' i hi hiid t ht
          by_cases hi2 : i = id2
          · subst hi2
            rw [lookupTask_setTask_self, htask2] at ht
            cases ht
            rw [ht']
            exact hts
          · rw [lookupTask_setTask_ne _ _ _ _ hi2] at ht
            exact hothers i (hq ▸ List.mem_cons_of_mem _ hi) hiid t ht
        have htrace2 : ∀ frames : List Frame, (∀ f ∈ frames, f.sid = task.streamId) →
            ∀ tail : List Frame, (∀ f ∈ tail, f.sid = task.streamId) →
            traceFor s (st.trace ++ [Frame.status task.streamId "running"] ++
              frames ++ tail) = [Frame.status s "queued"] := by
          intro frames hframes tail htail
          rw [traceFor_append, traceFor_append, traceFor_append, hproj,
            traceFor_single_ne s (Frame.status task.streamId "running") hts,
            traceFor_all_sid_ne s frames
              (fun f hf h2 => hts ((hframes f hf) ▸ h2 ▸ rfl)),
            traceFor_all_sid_ne s tail
              (fun f hf h2 => hts ((htail f hf) ▸ h2 ▸ rfl))]
          simp
        split
        · next frames errMsg heq =>
          have hframes : ∀ f ∈ frames, f.sid = task.streamId := by
            intro f hf
            exact execFrames_sids task.streamId spec f
              (heq ▸ hf)
          refine StreamPhase.pending id q ?_ hactive2 hidrest (htask3 _) ?_
          · exact htrace2 frames hframes _ (term_sids_err task.streamId errMsg)
          · exact hothers2 _ rfl
        · next frames heq =>
          have hframes : ∀ f ∈ frames, f.sid = task.streamId := by
            intro f hf
            exact execFrames_sids task.streamId spec f
              (heq ▸ hf)
          refine StreamPhase.pending id q ?_ hactive2 hidrest (htask3 _) ?_
          · exact htrace2 frames hframes _ (term_sids_completed task.streamId)
          · exact hothers2 _ rfl

theorem inactive_handleInbound (s : String) {st : ConnState} (hwf : WF st)
    (hact : lookupActive st.active s = none) (hclean : queueCleanFor s st)
    (m : InboundMsg) (hm : m.streamId ≠ s) :
    traceFor s (handleInbound st m).trace = traceFor s st.trace ∧
    lookupActive (handleInbound st m).active s = none ∧
    queueCleanFor s (handleInbound st m) := by
  have hcancel := inactive_handleCancelRequest s hwf hact hclean m.streamId hm
  have hquery := inactive_queueQuery s hwf hact hclean m.streamId m.queryId hm
  unfold handleInbound
  split
  · split
    · next st' e heq =>
      rw [heq] at hcancel
      obtain ⟨h1, h2, h3⟩ := hcancel
      refine ⟨?_, h2, h3⟩
      rw [show ({ st' with trace := st'.trace ++ [Frame.error m.streamId e] } :
          ConnState).trace = st'.trace ++ [Frame.error m.streamId e] from rfl,
        traceFor_append, traceFor_single_ne s (Frame.error m.streamId e) hm,
        List.append_nil]
      exact h1
    · next st' heq =>
      rw [heq] at hcancel
      exact hcancel
  · split
    · next st' e heq =>
      rw [heq] at hquery
      obtain ⟨h1, h2, h3⟩ := hquery
      refine ⟨?_, h2, h3⟩
      rw [show ({ st' with trace := st'.trace ++ [Frame.error m.streamId e] } :
          ConnState).trace = st'.trace ++ [Frame.error m.streamId e] from rfl,
        traceFor_append, traceFor_single_ne s (Frame.error m.streamId e) hm,
        List.append_nil]
      exact h1
    · next st' heq =>
      rw [heq] at hquery
      exact hquery

theorem phase_handleInbound (s : String) {st : ConnState} (hwf : WF st)
    (hph : StreamPhase s st) (m : InboundMsg) (hm : m.streamId ≠ s) :
    StreamPhase s (handleInbound st m) := by
  have hcancel : StreamPhase s (handleCancelRequest st m.streamId).1 := by
    cases hph with
    | notSeen hproj hact hclean =>
      obtain ⟨h1, h2, h3⟩ :=
        inactive_handleCancelRequest s hwf hact hclean m.streamId hm
      exact StreamPhase.notSeen (h1.trans hproj) h2 h3
    | pending id q hproj hact hidq htask hothers =>
      exact pending_handleCancelRequest s hwf id q hproj hact hidq htask
        hothers m.streamId hm
    | closed hproj hact hclean =>
      obtain ⟨h1, h2, h3⟩ :=
        inactive_handleCancelRequest s hwf hact hclean m.streamId hm
      refine StreamPhase.closed ?_ h2 h3
      rw [h1]
      exact hproj
  have hquery : StreamPhase s (queueQuery st m.streamId m.queryId).1 := by
    cases hph with
    | notSeen hproj hact hclean =>
      obtain ⟨h1, h2, h3⟩ :=
        inactive_queueQuery s hwf hact hclean m.streamId m.queryId hm
      exact StreamPhase.notSeen (h1.trans hproj) h2 h3
    | pending id q hproj hact hidq htask hothers =>
      exact pending_queueQuery s hwf id q hproj hact hidq htask hothers
        m.streamId m.queryId hm
    | closed hproj hact hclean =>
      obtain ⟨h1, h2, h3⟩ :=
        inactive_queueQuery s hwf hact hclean m.streamId m.queryId hm
      refine StreamPhase.closed ?_ h2 h3
      rw [h1]
      exact hproj
  unfold handleInbound
  split
  · split
    · next st' e heq =>
      have h2 : StreamPhase s st' := by
        rw [heq] at hcancel
        exact hcancel
      refine phase_append_trace s h2 [Frame.error m.streamId e] ?_
      intro f hf
      rw [List.mem_singleton] at hf
      rw [hf]
      exact hm
    · next st' heq =>
      rw [heq] at hcancel
      exact hcancel
  · split
    · next st' e heq =>
      have h2 : StreamPhase s st' := by
        rw [heq] at hquery
        exact hquery
      refine phase_append_trace s h2 [Frame.error m.streamId e] ?_
      intro f hf
      rw [List.mem_singleton] at hf
      rw [hf]
      exact hm
    · next st' heq =>
      rw [heq] at hquery
      exact hquery

theorem phase_workerStep (s : String) {st : ConnState} (hwf : WF st)
    (hph : StreamPhase s st) (spec : ExecBehavior) :
    StreamPhase s (workerStep spec st) := by
  cases hph with
  | notSeen hproj hact hclean =>
    obtain ⟨h1, h2, h3⟩ := inactive_workerStep s hwf hact hclean spec
    exact StreamPhase.notSeen (h1.trans hproj) h2 h3
  | pending id q hproj hact hidq htask hothers =>
    exact pending_workerStep s hwf id q hproj hact hidq htask hothers spec
  | closed hproj hact hclean =>
    obtain ⟨h1, h2, h3⟩ := inactive_workerStep s hwf hact hclean spec
    refine StreamPhase.closed ?_ h2 h3
    rw [h1]
    exact hproj

theorem phase_step (s : String) {st : ConnState} (hwf : WF st)
    (hph : StreamPhase s st) (e : ConnEvent)
    (he : ∀ m, e = ConnEvent.inbound m → m.streamId ≠ s) :
    StreamPhase s (stepConn st e) := by
  cases e with
  | inbound m => exact phase_handleInbound s hwf hph m (he m rfl)
  | worker spec => exact phase_workerStep s hwf hph spec

theorem phase_run (s : String) {st : ConnState} (hwf : WF st)
    (hph : StreamPhase s st) (es : List ConnEvent)
    (hes : ∀ m, ConnEvent.inbound m ∈ es → m.streamId ≠ s) :
    StreamPhase s (runConn st es) := by
  induction es generalizing st with
  | nil => exact hph
  | cons e es ih =>
    refine ih (wf_stepConn hwf e)
      (phase_step s hwf hph e ?_) (fun m hm => hes m (List.mem_cons_of_mem _ hm))
    intro m hm
    refine hes m ?_
    rw [← hm]
    exact List.mem_cons_self _ _

theorem phase_admit (s : String) (hs : s ≠ "") {st : ConnState} (hwf : WF st)
    (hproj : traceFor s st.trace = []) (hact : lookupActive st.active s = none)
    (hclean : queueCleanFor s st) (m : InboundMsg) (hms : m.streamId = s)
    (hmt : m.mtype ≠ "cancel") (hmq : m.queryId ≠ "") :
    StreamPhase s (handleInbound st m) := by
  unfold handleInbound
  rw [if_neg hmt]
  unfold queueQuery
  rw [hms]
  have hval : ¬ (s = "" ∨ m.queryId = "") := by
    rintro (h | h)
    · exact hs h
    · exact hmq h
  rw [if_neg hval, hact]
  by_cases hlt : st.queue.length < st.capacity
  · rw [if_pos hlt]
    show StreamPhase s
      { st with nextId := st.nextId + 1,
                tasks := (st.nextId, ⟨s, m.queryId, "queued", false⟩) :: st.tasks,
                active := (s, st.nextId) :: st.active,
                trace := st.trace ++ [Frame.status s "queued"],
                queue := st.queue ++ [st.nextId] }
    refine StreamPhase.pending st.nextId m.queryId ?_ ?_ ?_ ?_ ?_
    · rw [traceFor_append, hproj,
        traceFor_single_eq s (Frame.status s "queued") rfl]
      simp
    · exact lookupActive_cons_self _ _ _
    · exact List.mem_append_right _ (List.mem_singleton.mpr rfl)
    · rw [lookupTask, if_pos rfl]
    · intro i hi hiid t ht
      rcases List.mem_append.mp hi with hi | hi
      · rw [lookupTask, if_neg (wf_queue_ne_nextId hwf hi)] at ht
        exact hclean i hi t ht
      · rw [List.mem_singleton] at hi
        exact absurd hi hiid
  · rw [if_neg hlt]
    show StreamPhase s
      { st with nextId := st.nextId + 1,
                tasks := setTask ((st.nextId, ⟨s, m.queryId, "queued", false⟩) :: st.tasks)
                  st.nextId ⟨s, m.queryId, "queued", true⟩,
                active := removeActive ((s, st.nextId) :: st.active) s,
                trace := st.trace ++ [Frame.status s "queued"] ++
                  [Frame.error s "query queue is full"] }
    rw [removeActive_cons_self, removeActive_eq_self hact, setTask_cons_self]
    refine StreamPhase.closed (Or.inl ?_) hact ?_
    · rw [traceFor_append, traceFor_append, hproj,
        traceFor_single_eq s (Frame.status s "queued") rfl,
        traceFor_single_eq s (Frame.error s "query queue is full") rfl]
      simp
    · intro i hi t ht
      rw [lookupTask, if_neg (wf_queue_ne_nextId hwf hi)] at ht
      exact hclean i hi t ht

theorem outcome_of_phase {s : String} {st : ConnState} (hph : StreamPhase s st) :
    streamOutcomeOK s (traceFor s st.trace) = true := by
  cases hph with
  | notSeen hproj hact hclean => simp [streamOutcomeOK, hproj]
  | pending id q hproj hact hidq htask hothers => simp [streamOutcomeOK, hproj]
  | closed hproj hact hclean =>
    rcases hproj with h | h
    · simp [streamOutcomeOK, h]
    · simp [streamOutcomeOK, h]

/-- Whether an event is an inbound frame naming stream `s`. -/
def namesStream (s : String) : ConnEvent → Bool
  | ConnEvent.inbound m => decide (m.streamId = s)
  | ConnEvent.worker _ => false

theorem stream_outcome_aux (s : String) (hs : s ≠ "") (es : List ConnEvent) :
    ∀ st : ConnState, WF st →
    traceFor s st.trace = [] → lookupActive st.active s = none →
    queueCleanFor s st →
    (∀ m, ConnEvent.inbound m ∈ es → m.streamId = s →
      m.mtype ≠ "cancel" ∧ m.queryId ≠ "") →
    es.countP (namesStream s) ≤ 1 →
    streamOutcomeOK s (traceFor s (runConn st es).trace) = true := by
  induction es with
  | nil =>
    intro st _ hproj _ _ _ _
    simp [runConn, streamOutcomeOK, hproj]
  | cons e es ih =>
    intro st hwf hproj hact hclean hgood hcount
    by_cases hname : namesStream s e = true
    · match e, hname with
      | ConnEvent.inbound m, hname =>
        have hms : m.streamId = s := by simpa [namesStream] using hname
        obtain ⟨hmt, hmq⟩ := hgood m (List.mem_cons_self _ _) hms
        have h1 : StreamPhase s (stepConn st (ConnEvent.inbound m)) :=
          phase_admit s hs hwf hproj hact hclean m hms hmt hmq
        have hzero : es.countP (namesStream s) = 0 := by
          rw [List.countP_cons_of_pos _ _ hname] at hcount
          omega
        have hrest : ∀ m2, ConnEvent.inbound m2 ∈ es → m2.streamId ≠ s := by
          intro m2 hm2 hms2
          have h0 := List.countP_eq_zero.mp hzero (ConnEvent.inbound m2) hm2
          simp [namesStream, hms2] at h0
        exact outcome_of_phase (phase_run s (wf_stepConn hwf _) h1 es hrest)
    · have hne : ∀ m, e = ConnEvent.inbound m → m.streamId ≠ s := by
        intro m he hms
        rw [he] at hname
        simp [namesStream, hms] at hname
      have hinv : traceFor s (stepConn st e).trace = traceFor s st.trace ∧
          lookupActive (stepConn st e).active s = none ∧
          queueCleanFor s (stepConn st e) := by
        cases e with
        | inbound m => exact inactive_handleInbound s hwf hact hclean m (hne m rfl)
        | worker spec => exact inactive_workerStep s hwf hact hclean spec
      obtain ⟨h1, h2, h3⟩ := hinv
      have hcount2 : es.countP (namesStream s) ≤ 1 := by
        rw [List.countP_cons_of_neg _ _ hname] at hcount
        exact hcount
      exact ih (stepConn st e) (wf_stepConn hwf e) (h1.trans hproj) h2 h3
        (fun m2 hm2 => hgood m2 (List.mem_cons_of_mem _ hm2)) hcount2

/-! ## Theorems for the claims -/

/-- Claim C9: driver value coercion is idempotent — for every value `v`,
`convertValue (convertValue v) = convertValue v`: bytes and timestamps
decode to strings, which (like null and every other value) a second
coercion leaves unchanged. -/
theorem convertValue_idempotent :
    ∀ v : GoValue, convertValue (convertValue v) = convertValue v := by
  intro v
  cases v <;> rfl

/-- Claim C8, counterexample: the read limit installed on every upgraded
connection is `maxMessageSize = 512 * 1024` bytes, not `64 * 1024`. -/
theorem connReadLimit_ne_64KiB : connReadLimit ≠ 64 * 1024 := by decide

/-- Claim C8, amended: the read limit configured on every upgraded
connection equals `512 * 1024` bytes (512 KiB); the second revision of
the websocket package declares `64 * 1024 * 1024` (64 MiB). -/
theorem connReadLimit_eq_512KiB :
    connReadLimit = 512 * 1024 ∧ maxMessageSizeRev2 = 64 * 1024 * 1024 := by
  exact ⟨rfl, rfl⟩

theorem workerStep_trace (spec : ExecBehavior) (st : ConnState)
    (id : Nat) (rest : List Nat) (task : QueryTask)
    (hq : st.queue = id :: rest) (ht : lookupTask st.tasks id = some task) :
    (workerStep spec st).trace =
      st.trace ++ [Frame.status task.streamId "running"] ++
        (execFrames task.streamId spec).1 ++
        (match (execFrames task.streamId spec).2 with
         | some e => [Frame.error task.streamId e,
                      Frame.status task.streamId "failed"]
         | none => [Frame.status task.streamId "completed"]) := by
  unfold workerStep
  simp only [hq, ht]
  split
  · next frames errMsg heq =>
    rw [heq]
  · next frames heq =>
    rw [heq]

/-- Claim C10, counterexample: a task cancelled while still queued is
later executed **normally** — `queueQuery` discards the derived task
context and the worker runs `executeQuery` under the live connection
context — so with a driver behaviour that yields a header and finishes
cleanly, the already-cancelled stream receives `metadata`, `complete`
and `status:completed`, and no `error` or `status:failed` frame is
emitted, refuting "attempts execution under the cancelled context and
emits error and status:failed frames". -/
theorem cancelled_queued_task_completes :
    (runConn (initState 4)
        [ConnEvent.inbound ⟨"query", "s1", "q1"⟩,
         ConnEvent.inbound ⟨"cancel", "s1", ""⟩,
         ConnEvent.worker ⟨none, some ["a"], [], none⟩]).trace =
      [Frame.status "s1" "queued", Frame.status "s1" "cancelled",
       Frame.status "s1" "running", Frame.metadata "s1" ["a"],
       Frame.complete "s1" 0, Frame.status "s1" "completed"] ∧
    Frame.status "s1" "failed" ∉ (runConn (initState 4)
        [ConnEvent.inbound ⟨"query", "s1", "q1"⟩,
         ConnEvent.inbound ⟨"cancel", "s1", ""⟩,
         ConnEvent.worker ⟨none, some ["a"], [], none⟩]).trace ∧
    (∀ e, Frame.error "s1" e ∉ (runConn (initState 4)
        [ConnEvent.inbound ⟨"query", "s1", "q1"⟩,
         ConnEvent.inbound ⟨"cancel", "s1", ""⟩,
         ConnEvent.worker ⟨none, some ["a"], [], none⟩]).trace) := by
  refine ⟨rfl, by decide, ?_⟩
  intro e hmem
  have ht : (runConn (initState 4)
      [ConnEvent.inbound ⟨"query", "s1", "q1"⟩,
       ConnEvent.inbound ⟨"cancel", "s1", ""⟩,
       ConnEvent.worker ⟨none, some ["a"], [], none⟩]).trace =
      [Frame.status "s1" "queued", Frame.status "s1" "cancelled",
       Frame.status "s1" "running", Frame.metadata "s1" ["a"],
       Frame.complete "s1" 0, Frame.status "s1" "completed"] := rfl
  rw [ht] at hmem
  simp at hmem

/-- Claim C10, amended: a `cancel` for a still-queued task removes it
from the active index, emits `status:cancelled`, and leaves the task
object in the bounded queue with its `CancelFunc` invoked; a worker then
dequeues it, marks it running and emits `status:running` for the
already-cancelled stream — but since the derived task context is
discarded at admission and the worker passes the live connection context
to execution, the task runs normally: for an arbitrary driver behaviour
`spec`, the subsequent frames are exactly the execution's own frames and
terminal (`metadata?`/`row*`/`complete`/`status:completed` on success,
`error`/`status:failed` only if the execution itself fails). -/
theorem cancelled_queued_task_is_rerun (spec : ExecBehavior) :
    (runConn (initState 4)
        [ConnEvent.inbound ⟨"query", "s1", "q1"⟩,
         ConnEvent.inbound ⟨"cancel", "s1", ""⟩]).queue = [0] ∧
    lookupActive (runConn (initState 4)
        [ConnEvent.inbound ⟨"query", "s1", "q1"⟩,
         ConnEvent.inbound ⟨"cancel", "s1", ""⟩]).active "s1" = none ∧
    lookupTask (runConn (initState 4)
        [ConnEvent.inbound ⟨"query", "s1", "q1"⟩,
         ConnEvent.inbound ⟨"cancel", "s1", ""⟩]).tasks 0 =
      some ⟨"s1", "q1", "cancelled", true⟩ ∧
    (runConn (initState 4)
        [ConnEvent.inbound ⟨"query", "s1", "q1"⟩,
         ConnEvent.inbound ⟨"cancel", "s1", ""⟩,
         ConnEvent.worker spec]).trace =
      [Frame.status "s1" "queued", Frame.status "s1" "cancelled",
       Frame.status "s1" "running"] ++ (execFrames "s1" spec).1 ++
      (match (execFrames "s1" spec).2 with
       | some e => [Frame.error "s1" e, Frame.status "s1" "failed"]
       | none => [Frame.status "s1" "completed"]) := by
  refine ⟨rfl, rfl, rfl, ?_⟩
  exact workerStep_trace spec
    (runConn (initState 4)
      [ConnEvent.inbound ⟨"query", "s1", "q1"⟩,
       ConnEvent.inbound ⟨"cancel", "s1", ""⟩])
    0 [] ⟨"s1", "q1", "cancelled", true⟩ rfl rfl

/-- Claim C7, counterexample: an inbound frame with the unknown type
discriminant `bogus` is not answered with a protocol error frame — it is
admitted and executed as a query (`status:queued` is emitted and the
stream enters the active index). -/
theorem unknown_type_executed_as_query :
    (handleInbound (initState 3) ⟨"bogus", "s1", "q1"⟩).trace =
      [Frame.status "s1" "queued"] ∧
    lookupActive (handleInbound (initState 3) ⟨"bogus", "s1", "q1"⟩).active "s1" =
      some 0 := by
  exact ⟨rfl, rfl⟩

/-- Claim C7, amended: the inbound dispatch only distinguishes `cancel`;
every frame whose type is not `cancel` — including unknown
discriminants — is handled exactly like a `query` frame, and a frame
whose `streamId`/`queryId` fail validation is answered with an `error`
frame while the read loop continues. -/
theorem non_cancel_frames_dispatch_as_query (st : ConnState) (m : InboundMsg)
    (h : m.mtype ≠ "cancel") :
    handleInbound st m = handleInbound st ⟨"query", m.streamId, m.queryId⟩ := by
  unfold handleInbound
  rw [if_neg h]
  rfl

/-- Witness for `non_cancel_frames_dispatch_as_query` at a concrete
state and message. -/
theorem non_cancel_frames_dispatch_as_query_witness :
    handleInbound (initState 3) ⟨"bogus", "s2", "q2"⟩ =
      handleInbound (initState 3) ⟨"query", "s2", "q2"⟩ :=
  non_cancel_frames_dispatch_as_query (initState 3) ⟨"bogus", "s2", "q2"⟩
    (by decide)

/-- Claim C6: in the first revision of `runner.ExecuteQuery` the claim
fails — when `drv.Connect` fails the error is propagated **without**
calling `drv.Close()` (no `driverClose` effect), whereas the second
revision closes the driver on both `Connect` and `Query` failure; in all
failure cases no `StreamResult` is returned. -/
theorem executeQueryV1_connect_fail_skips_close :
    ExecuteQueryV1 demoClient idEngine (constCatalog connectFailDriver) "q1" () =
      (Except.error "failed to connect using driver: dial error",
       [ResolveEffect.fetchQueries "q1", ResolveEffect.fetchConnectors "c1",
        ResolveEffect.driverConnect]) ∧
    ResolveEffect.driverClose ∉
      (ExecuteQueryV1 demoClient idEngine (constCatalog connectFailDriver) "q1" ()).2 ∧
    (ExecuteQuery demoClient idEngine (constCatalog connectFailDriver) "q1" ()).2 =
      [ResolveEffect.fetchQueries "q1", ResolveEffect.fetchConnectors "c1",
       ResolveEffect.driverConnect, ResolveEffect.driverClose] ∧
    (ExecuteQuery demoClient idEngine (constCatalog queryFailDriver) "q1" ()).2 =
      [ResolveEffect.fetchQueries "q1", ResolveEffect.fetchConnectors "c1",
       ResolveEffect.driverConnect, ResolveEffect.driverQuery "SELECT 1",
       ResolveEffect.driverClose] ∧
    (ExecuteQueryV1 demoClient idEngine (constCatalog queryFailDriver) "q1" ()).2 =
      [ResolveEffect.fetchQueries "q1", ResolveEffect.fetchConnectors "c1",
       ResolveEffect.driverConnect, ResolveEffect.driverQuery "SELECT 1",
       ResolveEffect.driverClose] := by
  refine ⟨rfl, ?_, rfl, rfl, rfl⟩
  decide

/-- Claim C2, counterexample: with `queue_capacity = 1`, the second
admission on one connection is rejected with the `query queue is full`
error frame, but **no** `status:failed` frame is emitted for it (the
read loop only sends the error frame), and a `status:queued` frame was
already sent before the rejection. -/
theorem queue_full_emits_no_failed_frame :
    (runConn (initState 1)
        [ConnEvent.inbound ⟨"query", "s1", "q1"⟩,
         ConnEvent.inbound ⟨"query", "s2", "q2"⟩]).trace =
      [Frame.status "s1" "queued", Frame.status "s2" "queued",
       Frame.error "s2" "query queue is full"] ∧
    Frame.status "s2" "failed" ∉
      (runConn (initState 1)
        [ConnEvent.inbound ⟨"query", "s1", "q1"⟩,
         ConnEvent.inbound ⟨"query", "s2", "q2"⟩]).trace := by
  exact ⟨rfl, by decide⟩

/-- Claim C2, amended: when a query frame is admitted while the bounded
queue is full, admission fails with `QueueFull`: the task is removed from
the active index and its context is cancelled, the task never reaches
`running` (its status stays `queued`), the queue is unchanged, and the
client receives a `status:queued` frame followed by an
`error: query queue is full` frame — but no `status:failed` frame. -/
theorem handleInbound_queue_full (st : ConnState) (s q : String)
    (hs : s ≠ "") (hq : q ≠ "") (hact : lookupActive st.active s = none)
    (hfull : st.capacity ≤ st.queue.length) :
    handleInbound st ⟨"query", s, q⟩ =
      { st with nextId := st.nextId + 1,
                tasks := (st.nextId, ⟨s, q, "queued", true⟩) :: st.tasks,
                trace := st.trace ++
                  [Frame.status s "queued",
                   Frame.error s "query queue is full"] } := by
  have hcancel : ¬ (("query" : String) = "cancel") := by decide
  have hval : ¬ (s = "" ∨ q = "") := by
    rintro (h | h)
    · exact hs h
    · exact hq h
  have hlt : ¬ (st.queue.length < st.capacity) := not_lt.mpr hfull
  unfold handleInbound
  rw [if_neg hcancel]
  unfold queueQuery
  rw [if_neg hval, hact]
  simp only [if_neg hlt]
  rw [removeActive_cons_self, removeActive_eq_self hact, setTask_cons_self]
  simp [List.append_assoc]

/-- Witness for `handleInbound_queue_full`: a connection with capacity 1
whose queue already holds one task rejects the second admission. -/
theorem handleInbound_queue_full_witness :
    handleInbound (runConn (initState 1) [ConnEvent.inbound ⟨"query", "s1", "q1"⟩])
        ⟨"query", "s2", "q2"⟩ =
      { runConn (initState 1) [ConnEvent.inbound ⟨"query", "s1", "q1"⟩] with
        nextId := 2,
        tasks := (1, ⟨"s2", "q2", "queued", true⟩) ::
          (runConn (initState 1) [ConnEvent.inbound ⟨"query", "s1", "q1"⟩]).tasks,
        trace := (runConn (initState 1) [ConnEvent.inbound ⟨"query", "s1", "q1"⟩]).trace ++
          [Frame.status "s2" "queued", Frame.error "s2" "query queue is full"] } :=
  handleInbound_queue_full _ "s2" "q2" (by decide) (by decide) (by decide)
    (by decide)

/-- Claim C3: a `cancel` naming an absent `streamId` (including a repeat
cancel after terminal) yields a `stream <id> not found` error frame and
leaves the connection state otherwise untouched (the read loop
continues); a `cancel` naming an active `streamId` invokes the task's
cancel handle, marks it cancelled, removes it from the active index, and
emits exactly one `status:cancelled` frame and no error frame; an
immediate second cancel then reports not-found, so terminal frames are
never duplicated. -/
theorem cancel_request_spec (st : ConnState) (s : String) (hs : s ≠ "") :
    (lookupActive st.active s = none →
      handleCancelRequest st s = (st, some ("stream " ++ s ++ " not found")) ∧
      handleInbound st ⟨"cancel", s, ""⟩ =
        { st with trace := st.trace ++
            [Frame.error s ("stream " ++ s ++ " not found")] }) ∧
    (∀ id, lookupActive st.active s = some id →
      (handleCancelRequest st s).2 = none ∧
      (handleCancelRequest st s).1.trace =
        st.trace ++ [Frame.status s "cancelled"] ∧
      (handleCancelRequest st s).1.active = removeActive st.active s ∧
      lookupActive (handleCancelRequest st s).1.active s = none ∧
      (handleCancelRequest st s).1.queue = st.queue ∧
      (∀ t, lookupTask st.tasks id = some t →
        lookupTask (handleCancelRequest st s).1.tasks id =
          some { t with status := "cancelled", ctxCancelled := true }) ∧
      handleCancelRequest (handleCancelRequest st s).1 s =
        ((handleCancelRequest st s).1,
         some ("stream " ++ s ++ " not found"))) := by
  constructor
  · intro hnone
    have h1 : handleCancelRequest st s = (st, some ("stream " ++ s ++ " not found")) := by
      unfold handleCancelRequest
      rw [if_neg hs, hnone]
    refine ⟨h1, ?_⟩
    have hcancel : (("cancel" : String) = "cancel") := rfl
    unfold handleInbound
    rw [if_pos hcancel, h1]
  · intro id hsome
    have h1 : handleCancelRequest st s =
        ({ st with
           tasks := match lookupTask st.tasks id with
             | some t => setTask st.tasks id { t with status := "cancelled", ctxCancelled := true }
             | none => st.tasks,
           active := removeActive st.active s,
           trace := st.trace ++ [Frame.status s "cancelled"] }, none) := by
      unfold handleCancelRequest
      rw [if_neg hs, hsome]
    rw [h1]
    refine ⟨rfl, rfl, rfl, lookupActive_removeActive_self _ _, rfl, ?_, ?_⟩
    · intro t ht
      simp only [ht]
      rw [lookupTask_setTask_self, ht]
      rfl
    · unfold handleCancelRequest
      rw [if_neg hs]
      simp only [lookupActive_removeActive_self]

/-- Witness for `cancel_request_spec`, exercising both the absent-stream
branch (fresh connection) and the active-stream branch (after one
admission). -/
theorem cancel_request_spec_witness :
    handleCancelRequest (initState 2) "s9" =
      ((initState 2), some "stream s9 not found") ∧
    (handleCancelRequest
        (runConn (initState 2) [ConnEvent.inbound ⟨"query", "s1", "q1"⟩]) "s1").1.trace =
      (runConn (initState 2) [ConnEvent.inbound ⟨"query", "s1", "q1"⟩]).trace ++
        [Frame.status "s1" "cancelled"] := by
  constructor
  · exact ((cancel_request_spec (initState 2) "s9" (by decide)).1 (by decide)).1
  · exact ((cancel_request_spec _ "s1" (by decide)).2 0 (by decide)).2.1

/-- Claim C5: the resolver performs its steps in order — a `queries`
lookup returning zero rows fails with `query not found` after touching
only the `queries` table; a template failure is returned before the
`connectors` table is consulted; a `connectors` lookup returning zero
rows fails with `connector not found`; an unknown connector type fails
with `unsupported connector type` before any driver is built; and a
`driverConnect` effect (opening a backend session) occurs only when the
query fetch, the render, the connector fetch and the driver construction
all succeeded. -/
theorem executeQuery_step_order {δ : Type} (client : SupaClient)
    (eng : TemplateEngine δ) (cat : DriverCatalog) (qid : String) (d : δ) :
    (client.queriesTable qid = Except.ok [] →
      ExecuteQuery client eng cat qid d =
        (Except.error "fetch query: query not found",
         [ResolveEffect.fetchQueries qid])) ∧
    (∀ qrow rest e, client.queriesTable qid = Except.ok (qrow :: rest) →
      renderTemplate eng qrow.content d = Except.error e →
      ExecuteQuery client eng cat qid d =
        (Except.error ("render template: " ++ e),
         [ResolveEffect.fetchQueries qid])) ∧
    (∀ qrow rest fq, client.queriesTable qid = Except.ok (qrow :: rest) →
      renderTemplate eng qrow.content d = Except.ok fq →
      client.connectorsTable qrow.connectorId = Except.ok [] →
      ExecuteQuery client eng cat qid d =
        (Except.error "fetch connector: connector not found",
         [ResolveEffect.fetchQueries qid,
          ResolveEffect.fetchConnectors qrow.connectorId])) ∧
    (∀ qrow rest fq conn crest,
      client.queriesTable qid = Except.ok (qrow :: rest) →
      renderTemplate eng qrow.content d = Except.ok fq →
      client.connectorsTable qrow.connectorId = Except.ok (conn :: crest) →
      conn.ctype ≠ "postgres" → conn.ctype ≠ "bigquery" → conn.ctype ≠ "athena" →
      ExecuteQuery client eng cat qid d =
        (Except.error ("create driver: " ++ ("unsupported connector type: " ++ conn.ctype)),
         [ResolveEffect.fetchQueries qid,
          ResolveEffect.fetchConnectors qrow.connectorId])) ∧
    (ResolveEffect.driverConnect ∈ (ExecuteQuery client eng cat qid d).2 →
      ∃ qrow fq conn drv,
        fetchQuery client qid = Except.ok qrow ∧
        renderTemplate eng qrow.content d = Except.ok fq ∧
        fetchConnector client qrow.connectorId = Except.ok conn ∧
        createDriver cat conn = Except.ok drv) := by
  refine ⟨?_, ?_, ?_, ?_, ?_⟩
  · intro hq
    unfold ExecuteQuery fetchQuery
    rw [hq]
    rfl
  · intro qrow rest e hq hr
    unfold ExecuteQuery fetchQuery
    rw [hq]
    simp only [hr]
  · intro qrow rest fq hq hr hc
    unfold ExecuteQuery fetchQuery fetchConnector
    rw [hq]
    simp only [hr, hc]
    rfl
  · intro qrow rest fq conn crest hq hr hc h1 h2 h3
    unfold ExecuteQuery fetchQuery fetchConnector createDriver
    rw [hq]
    simp only [hr, hc, if_neg h1, if_neg h2, if_neg h3]
  · intro hmem
    unfold ExecuteQuery at hmem
    split at hmem
    · simp at hmem
    · next query hfq =>
      split at hmem
      · simp at hmem
      · next finalQuery hr =>
        split at hmem
        · simp at hmem
        · next connector hc =>
          split at hmem
          · simp at hmem
          · next drv hd =>
            exact ⟨query, finalQuery, connector, drv, hfq, hr, hc, hd⟩

/-- Witness for `executeQuery_step_order`: each error branch exercised on
a concrete metadata store, template engine and catalog. -/
theorem executeQuery_step_order_witness :
    ExecuteQuery demoClient idEngine (constCatalog queryFailDriver) "missing" () =
      (Except.error "fetch query: query not found",
       [ResolveEffect.fetchQueries "missing"]) ∧
    ExecuteQuery demoClient renderFailEngine (constCatalog queryFailDriver) "q1" () =
      (Except.error "render template: missing field",
       [ResolveEffect.fetchQueries "q1"]) ∧
    ExecuteQuery odbcClient idEngine (constCatalog queryFailDriver) "q1" () =
      (Except.error "create driver: unsupported connector type: odbc",
       [ResolveEffect.fetchQueries "q1", ResolveEffect.fetchConnectors "c1"]) ∧
    (∃ qrow fq conn drv,
      fetchQuery demoClient "q1" = Except.ok qrow ∧
      renderTemplate idEngine qrow.content () = Except.ok fq ∧
      fetchConnector demoClient qrow.connectorId = Except.ok conn ∧
      createDriver (constCatalog queryFailDriver) conn = Except.ok drv) := by
  refine ⟨?_, ?_, ?_, ?_⟩
  · exact (executeQuery_step_order demoClient idEngine
      (constCatalog queryFailDriver) "missing" ()).1 (by rfl)
  · exact (executeQuery_step_order demoClient renderFailEngine
      (constCatalog queryFailDriver) "q1" ()).2.1 ⟨"q1", "c1", "SELECT 1"⟩ []
      "missing field" (by rfl) (by rfl)
  · exact (executeQuery_step_order odbcClient idEngine
      (constCatalog queryFailDriver) "q1" ()).2.2.2.1 ⟨"q1", "c1", "SELECT 1"⟩ []
      "SELECT 1" ⟨"c1", "odbc", "{}"⟩ [] (by rfl) (by rfl) (by rfl)
      (by decide) (by decide) (by decide)
  · exact (executeQuery_step_order demoClient idEngine
      (constCatalog queryFailDriver) "q1" ()).2.2.2.2 (by decide)

/-- Claim C4: for every connection and every reachable instant (any
event sequence from a fresh connection of capacity `Q`), the active-task
index has pairwise-distinct `streamId` keys and at most
`queue_capacity + max_workers` entries; admitting a query whose
`streamId` is already active returns an error without touching the index
(no second entry); and a worker's terminal transition removes the task's
entry from the index. -/
theorem active_index_invariant (Q N : Nat) (es : List ConnEvent) :
    (((runConn (initState Q) es).active.map Prod.fst).Nodup ∧
     (runConn (initState Q) es).active.length ≤ Q + N) ∧
    (∀ s q i, lookupActive (runConn (initState Q) es).active s = some i →
      (queueQuery (runConn (initState Q) es) s q).2.isSome ∧
      (queueQuery (runConn (initState Q) es) s q).1.active =
        (runConn (initState Q) es).active) ∧
    (∀ spec hd rest task,
      (runConn (initState Q) es).queue = hd :: rest →
      lookupTask (runConn (initState Q) es).tasks hd = some task →
      lookupActive (workerStep spec (runConn (initState Q) es)).active
        task.streamId = none) := by
  have hwf := wf_runConn (wf_initState Q) es
  refine ⟨⟨hwf.activeKeysNodup, ?_⟩, ?_, ?_⟩
  · have hlen := wf_active_length hwf
    have hcap : (runConn (initState Q) es).capacity = Q :=
      capacity_runConn (initState Q) es
    rw [hcap] at hlen
    exact le_trans hlen (Nat.le_add_right Q N)
  · intro s q i h
    exact queueQuery_duplicate _ s q h
  · intro spec hd rest task hq ht
    exact workerStep_removes_entry spec _ hq ht

/-- Witness for `active_index_invariant`: the duplicate-rejection and
terminal-removal conjuncts applied on a connection with one admitted
stream. -/
theorem active_index_invariant_witness :
    ((queueQuery (runConn (initState 2) [ConnEvent.inbound ⟨"query", "s1", "q1"⟩])
        "s1" "q9").2.isSome ∧
      (queueQuery (runConn (initState 2) [ConnEvent.inbound ⟨"query", "s1", "q1"⟩])
        "s1" "q9").1.active =
        (runConn (initState 2) [ConnEvent.inbound ⟨"query", "s1", "q1"⟩]).active) ∧
    lookupActive (workerStep ⟨none, none, [], none⟩
        (runConn (initState 2) [ConnEvent.inbound ⟨"query", "s1", "q1"⟩])).active
      "s1" = none ∧
    (runConn (initState 2) [ConnEvent.inbound ⟨"query", "s1", "q1"⟩]).active.length ≤
      2 + 3 := by
  have h := active_index_invariant 2 3 [ConnEvent.inbound ⟨"query", "s1", "q1"⟩]
  refine ⟨h.2.1 "s1" "q9" 0 (by decide), ?_, h.1.2⟩
  exact h.2.2 ⟨none, none, [], none⟩ 0 [] ⟨"s1", "q1", "queued", false⟩
    (by decide) (by decide)

/-- Claim C1, counterexample: the stream `s1` is admitted (its projection
starts with `status:queued`), a cancel is processed while it is queued,
and — because the worker re-executes the still-queued task under the
live connection context — the worker afterwards emits `status:running`,
`metadata`, `complete` and `status:completed` for it: the projection
continues past the `status:cancelled` terminal, `complete` **is**
emitted for a cancelled stream, and the sequence does not match the
§8.1 regular expression. -/
theorem cancelled_stream_gets_more_frames :
    traceFor "s1" (runConn (initState 4)
      [ConnEvent.inbound ⟨"query", "s1", "q1"⟩,
       ConnEvent.inbound ⟨"cancel", "s1", ""⟩,
       ConnEvent.worker ⟨none, some ["a"], [], none⟩]).trace =
      [Frame.status "s1" "queued", Frame.status "s1" "cancelled",
       Frame.status "s1" "running", Frame.metadata "s1" ["a"],
       Frame.complete "s1" 0, Frame.status "s1" "completed"] ∧
    streamSeqMatches "s1" (traceFor "s1" (runConn (initState 4)
      [ConnEvent.inbound ⟨"query", "s1", "q1"⟩,
       ConnEvent.inbound ⟨"cancel", "s1", ""⟩,
       ConnEvent.worker ⟨none, some ["a"], [], none⟩]).trace) = false := by
  exact ⟨rfl, by decide⟩

/-- Claim C1, amended: for every streamId named by at most one inbound
frame — a query with nonempty ids and no cancel — the projection of the
outbound trace onto that streamId is, at every reachable instant, either
empty, or `status:queued` alone (still queued), or
`status:queued · error:QueueFull` (admission rejected), or it matches
`status:queued · status:running · metadata? · row* ·
(complete·status:completed | error·status:failed)` and nothing follows
the terminal.  When a cancel frame for the stream is processed the code
may instead emit further frames after `status:cancelled` — the worker
re-executes the task under the live connection context, so even
`metadata`, `row`, `complete` and `status:completed` can follow the
cancel terminal, as the counterexample shows. -/
theorem stream_frame_sequence (Q : Nat) (s : String) (hs : s ≠ "")
    (es : List ConnEvent)
    (hgood : ∀ m, ConnEvent.inbound m ∈ es → m.streamId = s →
      m.mtype ≠ "cancel" ∧ m.queryId ≠ "")
    (honce : es.countP (namesStream s) ≤ 1) :
    streamOutcomeOK s (traceFor s (runConn (initState Q) es).trace) = true :=
  stream_outcome_aux s hs es (initState Q) (wf_initState Q) rfl rfl
    (fun i hi => absurd hi (List.not_mem_nil i)) hgood honce

/-- Witness for `stream_frame_sequence`: a single admitted stream, run to
completion by a worker, on a fresh connection of capacity 2. -/
theorem stream_frame_sequence_witness :
    streamOutcomeOK "s1" (traceFor "s1" (runConn (initState 2)
      [ConnEvent.inbound ⟨"query", "s1", "q1"⟩,
       ConnEvent.worker ⟨none, some ["a"], [[GoValue.intVal 1]], none⟩]).trace) =
      true := by
  refine stream_frame_sequence 2 "s1" (by decide) _ ?_ (by decide)
  intro m hm hms
  rcases List.mem_cons.mp hm with h | hm2
  · injection h with h2
    subst h2
    exact ⟨by decide, by decide⟩
  · rw [List.mem_singleton] at hm2
    cases hm2

end Supalytics
